import Mathlib

/-!
Order-service command-line client (`main.go`).

A shallow embedding of the interactive client: the menu loop, the six
handlers, the four verb helpers and the response renderer, together with
executable models of the Go standard-library functions they call
(`bufio.Reader.ReadString`, `strings.TrimSpace`, `strconv.Atoi`,
`strconv.ParseFloat`, `json.Marshal`, `json.Indent`).

Conventions.
* Go strings are modelled by Lean strings: standard input and response
  bodies are taken to be valid UTF-8, so that a rune is a `Char`.
* `int` is 64 bits wide (`strconv.IntSize = 64`).
* A `float64` is kept exactly, as sign, integer mantissa and binary exponent;
  parsing rounds to nearest, ties to even, as `strconv.ParseFloat` documents.
* Standard output and the calls into `net/http` are recorded, in order, as a
  trace of events; what the network answers is a parameter (`Net`).
* The text of an error that `net/http` returns is the world's; the program
  only prints it.
-/

namespace OrderClient

/-! ## Reading lines -/

/-- The line feed, the delimiter every read of the program uses. -/
def newline : Char := Char.ofNat 10

/-- `reader.ReadString('\n')` with its error discarded, as every call site of
`main.go` does (`x, _ := reader.ReadString('\n')`): the text up to and
including the first line feed and the unread rest. At end of input the
library returns what is left (possibly nothing) together with `io.EOF`; the
error being dropped, only the text remains. -/
def readString : List Char → List Char × List Char
  | [] => ([], [])
  | c :: cs =>
    if c = newline then ([c], cs)
    else ((c :: (readString cs).1), (readString cs).2)

/-- `unicode.IsSpace`: the white space `strings.TrimSpace` removes. -/
def isSpace (c : Char) : Bool :=
  let n := c.toNat
  (9 ≤ n && n ≤ 13) || n == 32 || n == 0x85 || n == 0xA0 || n == 0x1680 ||
  (0x2000 ≤ n && n ≤ 0x200A) || n == 0x2028 || n == 0x2029 || n == 0x202F ||
  n == 0x205F || n == 0x3000

/-- `strings.TrimSpace` on a list of runes: leading and trailing white space
removed, everything between kept. -/
def trimSpaceL (s : List Char) : List Char :=
  ((s.dropWhile isSpace).reverse.dropWhile isSpace).reverse

/-- `strings.TrimSpace`. -/
def trimSpace (s : String) : String := ⟨trimSpaceL s.data⟩

/-- One read as the program performs it: `ReadString('\n')` followed by
`strings.TrimSpace`; returns the trimmed line and the unread input. -/
def readTrimmed (input : List Char) : String × List Char :=
  (⟨trimSpaceL (readString input).1⟩, (readString input).2)

/-! ## `strconv.Atoi` -/

/-- Value of an ASCII decimal digit. -/
def digitVal (c : Char) : Option Nat :=
  if 48 ≤ c.toNat ∧ c.toNat ≤ 57 then some (c.toNat - 48) else none

/-- Reads a run made only of decimal digits, most significant first. -/
def parseDigits : List Char → Nat → Option Nat
  | [], acc => some acc
  | c :: cs, acc =>
    match digitVal c with
    | some d => parseDigits cs (acc * 10 + d)
    | none => none

/-- Splits an optional leading sign off: `(negative, rest)`. -/
def splitSign : List Char → Bool × List Char
  | c :: cs => if c = '-' then (true, cs) else if c = '+' then (false, cs) else (false, c :: cs)
  | [] => (false, [])

/-- `strconv.Atoi` for a 64-bit `int`: an optional sign followed by at least
one decimal digit and nothing else, the value within `[-2^63, 2^63 - 1]`;
`none` stands for any error (`ErrSyntax` or `ErrRange`). -/
def atoi (s : String) : Option Int :=
  let p := splitSign s.data
  match p.2 with
  | [] => none
  | ds =>
    match parseDigits ds 0 with
    | none => none
    | some n =>
      if p.1 then (if n ≤ 2 ^ 63 then some (-(n : Int)) else none)
      else (if n < 2 ^ 63 then some (n : Int) else none)

/-! ## `float64` and `strconv.ParseFloat` -/

/-- A `float64` value, kept exactly. `finite neg m e` is `(-1)^neg * m * 2^e`
in canonical form: zero is `m = 0, e = 0`; a subnormal has `m < 2^52` and
`e = -1074`; a normal number has `2^52 ≤ m < 2^53` and `-1074 ≤ e ≤ 971`. -/
inductive Float64
  | finite (neg : Bool) (mant : Nat) (exp : Int)
  | inf (neg : Bool)
  | nan
deriving DecidableEq, Repr

/-- Neither an infinity nor a NaN (`!math.IsInf(f, 0) && !math.IsNaN(f)`). -/
def Float64.isFinite : Float64 → Bool
  | .finite _ _ _ => true
  | .inf _ => false
  | .nan => false

/-- The error kinds of package `strconv`. -/
inductive NumError
  | errSyntax
  | errRange
deriving DecidableEq, Repr

/-- Number of binary digits of a natural number (`0` for `0`). -/
def bitLen (n : Nat) : Nat := if n = 0 then 0 else (Nat.toDigits 2 n).length

/-- The fraction `num/den` divided by `2^e`, again as a fraction. -/
def scaleBy (num den : Nat) (e : Int) : Nat × Nat :=
  if 0 ≤ e then (num, den * 2 ^ e.toNat) else (num * 2 ^ (-e).toNat, den)

/-- The fraction `n/d` rounded to the nearest integer, ties to even. -/
def roundHalfEven (n d : Nat) : Nat :=
  if 2 * (n % d) > d ∨ (2 * (n % d) = d ∧ (n / d) % 2 = 1) then n / d + 1 else n / d

/-- IEEE 754 binary64 rounding of the exact value `(-1)^neg * num/den`
(`den > 0`), nearest with ties to even; `none` when the rounded magnitude
exceeds the largest finite `float64` (the library's `ErrRange`). Values too
small for a subnormal round to zero silently, as in the library. -/
def roundFloat64 (neg : Bool) (num den : Nat) : Option Float64 :=
  if num = 0 then some (.finite neg 0 0)
  else
    let e0 : Int := (bitLen num : Int) - (bitLen den : Int) - 53
    let s0 := scaleBy num den e0
    let e1 : Int := if 2 ^ 53 ≤ s0.1 / s0.2 then e0 + 1 else e0
    let e : Int := max e1 (-1074)
    let s := scaleBy num den e
    let q := roundHalfEven s.1 s.2
    if q = 0 then some (.finite neg 0 0)
    else if q = 2 ^ 53 then
      (if e + 1 > 971 then none else some (.finite neg (2 ^ 52) (e + 1)))
    else (if e > 971 then none else some (.finite neg q e))

/-- Value of a hexadecimal digit, either case. -/
def hexVal (c : Char) : Option Nat :=
  let n := c.toNat
  if 48 ≤ n ∧ n ≤ 57 then some (n - 48)
  else if 97 ≤ n ∧ n ≤ 102 then some (n - 87)
  else if 65 ≤ n ∧ n ≤ 70 then some (n - 55)
  else none

/-- Lower-casing of `'A'..'Z'`, other runes unchanged. -/
def toLowerASCII (c : Char) : Char :=
  if 65 ≤ c.toNat ∧ c.toNat ≤ 90 then Char.ofNat (c.toNat + 32) else c

/-- `commonPrefixLenIgnoreCase(s, prefix)` of `strconv`, `prefix` in lower case. -/
def commonPrefixLenIgnoreCase : List Char → List Char → Nat
  | c :: s, p :: ps => if toLowerASCII c = p then commonPrefixLenIgnoreCase s ps + 1 else 0
  | _, _ => 0

/-- Length of the `inf` / `infinity` prefix that `special` consumes, if any. -/
def infPrefix (s : List Char) : Option Nat :=
  let n := commonPrefixLenIgnoreCase s "infinity".data
  let n := if 3 < n ∧ n < 8 then 3 else n
  if n = 3 ∨ n = 8 then some n else none

/-- `special` of `strconv/atof.go`: the optionally signed `inf`, `infinity`
and the unsigned `nan`, in any case; returns the value and the number of
runes consumed. -/
def special : List Char → Option (Float64 × Nat)
  | [] => none
  | c :: cs =>
    if c = '+' ∨ c = '-' then
      (infPrefix cs).map (fun n => (Float64.inf (c = '-'), 1 + n))
    else if c = 'i' ∨ c = 'I' then
      (infPrefix (c :: cs)).map (fun n => (Float64.inf false, n))
    else if c = 'n' ∨ c = 'N' then
      (if commonPrefixLenIgnoreCase (c :: cs) "nan".data = 3 then some (Float64.nan, 3) else none)
    else none

/-- What the mantissa loop of `readFloat` has seen so far. -/
structure Mantissa where
  sawdot : Bool
  sawdigits : Bool
  underscores : Bool
  mant : Nat
  frac : Nat
deriving DecidableEq, Repr

/-- The mantissa loop of `readFloat`: digits in the given base, underscores
(validated later) and at most one point; stops at the first other rune.
`mant` is the integer written by all the digits, `frac` how many of them
follow the point. -/
def readMantissa (hex : Bool) : List Char → Mantissa → Mantissa × List Char
  | [], m => (m, [])
  | c :: cs, m =>
    if c = '_' then readMantissa hex cs { m with underscores := true }
    else if c = '.' then
      (if m.sawdot then (m, c :: cs) else readMantissa hex cs { m with sawdot := true })
    else
      match (if hex then hexVal c else digitVal c) with
      | some d =>
        readMantissa hex cs
          { m with sawdigits := true,
                   mant := m.mant * (if hex then 16 else 10) + d,
                   frac := if m.sawdot then m.frac + 1 else m.frac }
      | none => (m, c :: cs)

/-- The exponent-digit loop of `readFloat`; the value stops growing once it
has reached 10000, as in the library. Returns the value, whether an
underscore was seen, and the unread rest. -/
def readExpDigits : List Char → Nat → Bool → Nat × Bool × List Char
  | [], e, u => (e, u, [])
  | c :: cs, e, u =>
    if c = '_' then readExpDigits cs e true
    else
      match digitVal c with
      | some d => readExpDigits cs (if e < 10000 then e * 10 + d else e) u
      | none => (e, u, c :: cs)

/-- `underscoreOK` of `strconv`: underscores only between digits, or between a
base prefix and a digit. The second argument is the library's `saw`. -/
def underscoreLoop (hex : Bool) : List Char → Char → Bool
  | [], saw => saw != '_'
  | c :: cs, saw =>
    if (digitVal c).isSome || (hex && (hexVal c).isSome) then underscoreLoop hex cs '0'
    else if c = '_' then (if saw != '0' then false else underscoreLoop hex cs '_')
    else if saw = '_' then false
    else underscoreLoop hex cs '!'

/-- `underscoreOK` of `strconv`. -/
def underscoreOK (s : List Char) : Bool :=
  match (splitSign s).2 with
  | c0 :: c1 :: r =>
    if c0 = '0' ∧ (toLowerASCII c1 = 'b' ∨ toLowerASCII c1 = 'o' ∨ toLowerASCII c1 = 'x') then
      underscoreLoop (toLowerASCII c1 = 'x') r '0'
    else underscoreLoop false (c0 :: c1 :: r) '^'
  | r => underscoreLoop false r '^'

/-- A floating-point literal as `readFloat` reads it: the value is
`mant * 10^(exp - frac)`, or `mant * 2^(exp - 4*frac)` for a hexadecimal one. -/
structure FloatLit where
  neg : Bool
  hex : Bool
  mant : Nat
  frac : Nat
  exp : Int
deriving DecidableEq, Repr

/-- The optional exponent of `readFloat`, after the mantissa `m` was read from
`whole` and `rest` is unread: `e`/`E` (or `p`/`P`, mandatory, for a
hexadecimal mantissa), an optional sign and at least one digit. Ends with the
underscore check on the part of `whole` consumed. -/
def readExponent (whole : List Char) (neg hex : Bool) (m : Mantissa) (rest : List Char) :
    Option (FloatLit × List Char) :=
  let finish (e : Int) (u : Bool) (r : List Char) : Option (FloatLit × List Char) :=
    if (m.underscores || u) && !underscoreOK (whole.take (whole.length - r.length)) then none
    else some (⟨neg, hex, m.mant, m.frac, e⟩, r)
  match rest with
  | c :: s4 =>
    if toLowerASCII c = (if hex then 'p' else 'e') then
      match (splitSign s4).2 with
      | d :: s5 =>
        if (digitVal d).isSome then
          let r := readExpDigits (d :: s5) 0 false
          finish (if (splitSign s4).1 then -(r.1 : Int) else (r.1 : Int)) r.2.1 r.2.2
        else none
      | [] => none
    else if hex then none
    else finish 0 false rest
  | [] => if hex then none else finish 0 false rest

/-- `readFloat` of `strconv/atof.go`: sign, optional `0x` prefix (taken as one
only when something follows it), mantissa, exponent. Returns the literal and
the unread rest; `none` when no number can be read. -/
def readFloat (s : List Char) : Option (FloatLit × List Char) :=
  match s with
  | [] => none
  | _ =>
    let s1 := (splitSign s).2
    let hex : Bool :=
      match s1 with
      | c0 :: c1 :: _ :: _ => c0 = '0' && toLowerASCII c1 = 'x'
      | _ => false
    let s2 := if hex then s1.drop 2 else s1
    let r := readMantissa hex s2 ⟨false, false, false, 0, 0⟩
    if !r.1.sawdigits then none
    else readExponent s (splitSign s).1 hex r.1 r.2

/-- The exact magnitude of a literal as a fraction `(num, den)`. -/
def FloatLit.magnitude (l : FloatLit) : Nat × Nat :=
  if l.hex then scaleBy l.mant 1 (4 * (l.frac : Int) - l.exp)
  else if 0 ≤ l.exp - (l.frac : Int) then (l.mant * 10 ^ (l.exp - (l.frac : Int)).toNat, 1)
  else (l.mant, 10 ^ ((l.frac : Int) - l.exp).toNat)

/-- `strconv.ParseFloat(s, 64)`: the special values, or a decimal or
hexadecimal literal that spans the whole text, rounded to the nearest
`float64`; a literal whose rounded magnitude overflows is `ErrRange`. -/
def parseFloat (s : String) : Except NumError Float64 :=
  match special s.data with
  | some (v, n) => if n = s.data.length then .ok v else .error .errSyntax
  | none =>
    match readFloat s.data with
    | none => .error .errSyntax
    | some (l, rest) =>
      match rest with
      | _ :: _ => .error .errSyntax
      | [] =>
        match roundFloat64 l.neg l.magnitude.1 l.magnitude.2 with
        | none => .error .errRange
        | some f => .ok f

/-! ## `json.Marshal` of an `Order` -/

deriving instance DecidableEq for Except

/-- The double quote. -/
def dquote : Char := Char.ofNat 34

/-- The backslash. -/
def backslash : Char := Char.ofNat 92

/-- Number of decimal digits of a positive natural number. -/
def numDigits (n : Nat) : Nat := (Nat.toDigits 10 n).length

/-- The integer `k` with `10^k ≤ num/den < 10^(k+1)`, for `num, den > 0`. -/
def log10Floor (num den : Nat) : Int :=
  if den ≤ num then (numDigits (num / den) : Int) - 1
  else -(numDigits ((den - 1) / num) : Int)

/-- The decimal `d * 10^(-p)` as a fraction. -/
def decimalFraction (d : Nat) (p : Int) : Nat × Nat :=
  if 0 ≤ p then (d, 10 ^ p.toNat) else (d * 10 ^ (-p).toNat, 1)

/-- Whether the decimal `d * 10^(-p)` parses back to the float `m * 2^e`. -/
def roundTrips (m : Nat) (e : Int) (d : Nat) (p : Int) : Bool :=
  decide (roundFloat64 false (decimalFraction d p).1 (decimalFraction d p).2 =
    some (.finite false m e))

/-- The `n`-digit decimal for the positive float `m * 2^e` (exactly `num/den`,
with `10^k ≤ num/den < 10^(k+1)`), if one parses back to it: of the two
`n`-digit decimals around the exact value, the nearer one that round-trips,
a tie going to the even one. Returned as `(d, p)`, standing for `d * 10^(-p)`. -/
def shortestAt (m : Nat) (e : Int) (num den : Nat) (k : Int) (n : Nat) : Option (Nat × Int) :=
  let p : Int := (n : Int) - 1 - k
  let s : Nat × Nat := if 0 ≤ p then (num * 10 ^ p.toNat, den) else (num, den * 10 ^ (-p).toNat)
  let lo := s.1 / s.2
  let r := s.1 % s.2
  let okLo := roundTrips m e lo p
  let okHi := r != 0 && roundTrips m e (lo + 1) p
  if okLo && okHi then
    (if 2 * r < s.2 ∨ (2 * r = s.2 ∧ lo % 2 = 0) then some (lo, p) else some (lo + 1, p))
  else if okLo then some (lo, p)
  else if okHi then some (lo + 1, p)
  else none

/-- Searches the digit counts `n, n+1, ...` for the first that round-trips. -/
def shortestFrom (m : Nat) (e : Int) (num den : Nat) (k : Int) : Nat → Nat → Nat × Int
  | 0, n => ((if 0 ≤ (n : Int) - 1 - k then num * 10 ^ ((n : Int) - 1 - k).toNat / den
              else num / (den * 10 ^ (k + 1 - (n : Int)).toNat)), (n : Int) - 1 - k)
  | fuel + 1, n =>
    match shortestAt m e num den k n with
    | some r => r
    | none => shortestFrom m e num den k fuel (n + 1)

/-- Drops trailing zero digits: `d * 10^(-p)` with `d` not a multiple of ten
(`d > 0`); the fuel bounds the number of digits dropped. -/
def stripZeros : Nat → Nat → Int → Nat × Int
  | 0, d, p => (d, p)
  | fuel + 1, d, p => if d % 10 = 0 ∧ d ≠ 0 then stripZeros fuel (d / 10) (p - 1) else (d, p)

/-- The shortest decimal digits that identify the positive float `m * 2^e`
(`strconv.FormatFloat` with precision `-1`): the digit string and the
position `dp` of the decimal point, the value being `0.d₁d₂… * 10^dp`. -/
def shortestDigits (m : Nat) (e : Int) : List Char × Int :=
  let v := scaleBy m 1 (-e)
  let r := shortestFrom m e v.1 v.2 (log10Floor v.1 v.2) 17 1
  let z := stripZeros 17 r.1 r.2
  (Nat.toDigits 10 z.1, (numDigits z.1 : Int) - z.2)

/-- Format `%f` with the shortest digits (`fmtF` of `strconv/ftoa.go`, sign apart). -/
def fmtF (ds : List Char) (dp : Int) : List Char :=
  if dp ≤ 0 then '0' :: '.' :: (List.replicate (-dp).toNat '0' ++ ds)
  else if dp.toNat < ds.length then ds.take dp.toNat ++ '.' :: ds.drop dp.toNat
  else ds ++ List.replicate (dp.toNat - ds.length) '0'

/-- The exponent of format `%e`: a sign and at least two digits. -/
def fmtExp (x : Int) : List Char :=
  (if x < 0 then '-' else '+') ::
    (if x.natAbs < 10 then '0' :: Nat.toDigits 10 x.natAbs else Nat.toDigits 10 x.natAbs)

/-- Format `%e` with the shortest digits (`fmtE` of `strconv/ftoa.go`, sign apart). -/
def fmtE (ds : List Char) (dp : Int) : List Char :=
  match ds with
  | [] => '0' :: 'e' :: fmtExp 0
  | [d] => d :: 'e' :: fmtExp (dp - 1)
  | d :: rest => d :: '.' :: (rest ++ 'e' :: fmtExp (dp - 1))

/-- The clean-up of `encoding/json` after `%e`: `e-09` becomes `e-9`. -/
def cleanExp : List Char → List Char
  | [] => []
  | c :: cs =>
    match c, cs with
    | 'e', [s, z, d] =>
      if (s = '-' ∨ s = '+') ∧ z = '0' then [c, s, d] else c :: cleanExp cs
    | _, _ => c :: cleanExp cs

/-- Whether `|f| < 1e-6` or `|f| ≥ 1e21` for the positive float `m * 2^e`,
compared as `float64` values: `1e21` is exact, `1e-6` is the `float64`
nearest to it. -/
def usesExponent (m : Nat) (e : Int) : Bool :=
  let v := scaleBy m 1 (-e)
  match roundFloat64 false 1 (10 ^ 6) with
  | some (.finite _ m6 e6) =>
    let c := scaleBy m6 1 (-e6)
    decide (v.1 * c.2 < c.1 * v.2) || decide (10 ^ 21 * v.2 ≤ v.1)
  | _ => false

/-- The text `strconv.FormatFloat(f, 'g', -1, 64)` gives the non-finite values;
`encoding/json` quotes it in its error. -/
def formatSpecial : Float64 → String
  | .nan => "NaN"
  | .inf false => "+Inf"
  | .inf true => "-Inf"
  | .finite _ _ _ => ""

/-- The `float64` encoder of `encoding/json` (`floatEncoder`): an error for
NaN and the infinities, otherwise the shortest digits in format `%f`, or in
`%e` outside `[1e-6, 1e21)`. -/
def encodeFloat (f : Float64) : Except String String :=
  match f with
  | .finite neg m e =>
    if m = 0 then .ok (if neg then "-0" else "0")
    else
      let d := shortestDigits m e
      let body := if usesExponent m e then cleanExp (fmtE d.1 d.2) else fmtF d.1 d.2
      .ok ⟨if neg then '-' :: body else body⟩
  | _ => .error ("json: unsupported value: " ++ formatSpecial f)

/-- The lower-case hexadecimal digit of a number below sixteen. -/
def hexDigit (n : Nat) : Char := "0123456789abcdef".data.getD n '0'

/-- How `encoding/json` writes one rune of a string with HTML escaping on, as
`json.Marshal` has it: quote and backslash escaped, the short escapes for
backspace, form feed, line feed, carriage return and tab, `\u00XX` for the
other control characters and for `<`, `>`, `&`, and the separators U+2028
and U+2029 escaped; every other rune as it is. (The short escapes for
backspace and form feed are those of Go 1.22 and later; earlier releases
write `\u0008` and `\u000c`.) -/
def escapeRune (c : Char) : List Char :=
  let n := c.toNat
  if c = backslash ∨ c = dquote then [backslash, c]
  else if n = 8 then [backslash, 'b']
  else if n = 12 then [backslash, 'f']
  else if n = 10 then [backslash, 'n']
  else if n = 13 then [backslash, 'r']
  else if n = 9 then [backslash, 't']
  else if n < 32 ∨ c = '<' ∨ c = '>' ∨ c = '&' then
    [backslash, 'u', '0', '0', hexDigit (n / 16), hexDigit (n % 16)]
  else if n = 0x2028 ∨ n = 0x2029 then [backslash, 'u', '2', '0', '2', hexDigit (n % 16)]
  else [c]

/-- The string encoder of `encoding/json`: the escaped runes between quotes. -/
def encodeString (s : String) : String :=
  ⟨dquote :: ((s.data.map escapeRune).flatten ++ [dquote])⟩

/-- The decimal text of an integer (`strconv.AppendInt(b, v, 10)`). -/
def formatInt : Int → String
  | .ofNat n => ⟨Nat.toDigits 10 n⟩
  | .negSucc n => ⟨'-' :: Nat.toDigits 10 (n + 1)⟩

/-- The transport record of `main.go`:
`ID string "id,omitempty"`, `ProductID string "product_id"`,
`Quantity int "quantity"`, `Amount float64 "amount"`,
`Status string "status,omitempty"`. -/
structure Order where
  ID : String
  ProductID : String
  Quantity : Int
  Amount : Float64
  Status : String
deriving DecidableEq, Repr

/-- The values the fields of an `Order` hold. -/
inductive FieldValue
  | str (s : String)
  | int (i : Int)
  | float (f : Float64)
deriving DecidableEq, Repr

/-- The members the struct encoder writes for an `Order`, in declaration
order, each with its JSON key; a string tagged `omitempty` is left out when
it is empty. -/
def Order.members (o : Order) : List (String × FieldValue) :=
  (if o.ID = "" then [] else [("id", FieldValue.str o.ID)]) ++
  [("product_id", FieldValue.str o.ProductID), ("quantity", FieldValue.int o.Quantity),
   ("amount", FieldValue.float o.Amount)] ++
  (if o.Status = "" then [] else [("status", FieldValue.str o.Status)])

/-- Encodes one value. -/
def encodeValue : FieldValue → Except String String
  | .str s => .ok (encodeString s)
  | .int i => .ok (formatInt i)
  | .float f => encodeFloat f

/-- Encodes the members one after the other, each as `"key":value`, separated
by commas; the first value that cannot be encoded aborts with its error. -/
def encodeMembers : List (String × FieldValue) → Except String String
  | [] => .ok ""
  | (k, v) :: rest =>
    match encodeValue v with
    | .error e => .error e
    | .ok t =>
      match rest, encodeMembers rest with
      | _, .error e => .error e
      | [], .ok _ => .ok (encodeString k ++ ":" ++ t)
      | _ :: _, .ok r => .ok (encodeString k ++ ":" ++ t ++ "," ++ r)

/-- `json.Marshal(order)`: the members between braces, or the encoder's error. -/
def marshal (o : Order) : Except String String :=
  match encodeMembers o.members with
  | .error e => .error e
  | .ok t => .ok ("\x7b" ++ t ++ "\x7d")

/-! ## `json.Indent`: the scanner of `encoding/json` and the indenter -/

/-- What the scanner is in the middle of (`parseObjectKey`,
`parseObjectValue`, `parseArrayValue`). -/
inductive ParseState
  | objectKey
  | objectValue
  | arrayValue
deriving DecidableEq, Repr

/-- The step functions of `scanner.go`. The states inside the literals
`true`, `false`, `null` are one constructor holding the runes still expected
(`stateT` is `lit ['r','u','e']`), and the four states inside `\uXXXX` one
constructor counting the hexadecimal digits read. -/
inductive Step
  | beginValueOrEmpty
  | beginValue
  | beginStringOrEmpty
  | beginString
  | endValue
  | endTop
  | inString
  | inStringEsc
  | inStringEscU (seen : Nat)
  | neg
  | one
  | zero
  | dot
  | dot0
  | exp
  | expSign
  | exp0
  | lit (rest : List Char)
  | error
deriving DecidableEq, Repr

/-- The codes a step returns. -/
inductive Code
  | scanContinue
  | scanBeginLiteral
  | scanBeginObject
  | scanObjectKey
  | scanObjectValue
  | scanEndObject
  | scanBeginArray
  | scanArrayValue
  | scanEndArray
  | scanSkipSpace
  | scanEnd
  | scanError
deriving DecidableEq, Repr

/-- The scanner: next step, stack of open objects and arrays (innermost
first), whether the top-level value is complete, whether an error occurred. -/
structure Scanner where
  step : Step
  parseState : List ParseState
  endTop : Bool
  err : Bool
deriving DecidableEq, Repr

/-- A scanner after `reset`. -/
def Scanner.init : Scanner := ⟨.beginValue, [], false, false⟩

/-- Nesting beyond this depth is an error (`maxNestingDepth`). -/
def maxNestingDepth : Nat := 10000

/-- JSON white space (`isSpace` of `scanner.go`). -/
def isJSONSpace (c : Char) : Bool :=
  c.toNat == 32 || c.toNat == 9 || c.toNat == 13 || c.toNat == 10

/-- `s.error`: records the error and stops the scanner. -/
def Scanner.fail (s : Scanner) : Scanner × Code :=
  ({ s with step := .error, err := true }, .scanError)

/-- `stateEndTop`: after the top-level value only white space may follow; the
error is recorded, the code returned is `scanEnd` either way. -/
def stateEndTop (s : Scanner) (c : Char) : Scanner × Code :=
  if isJSONSpace c then (s, .scanEnd) else ({ s with step := .error, err := true }, .scanEnd)

/-- `popParseState`. -/
def Scanner.pop (s : Scanner) : Scanner :=
  match s.parseState.tail with
  | [] => { s with parseState := [], step := .endTop, endTop := true }
  | r => { s with parseState := r, step := .endValue }

/-- `pushParseState`, the successor step being set by the caller beforehand. -/
def Scanner.push (s : Scanner) (next : Step) (p : ParseState) (ok : Code) : Scanner × Code :=
  if s.parseState.length + 1 ≤ maxNestingDepth then
    ({ s with step := next, parseState := p :: s.parseState }, ok)
  else Scanner.fail { s with step := next, parseState := p :: s.parseState }

/-- `stateEndValue`: after a value, inside an object or array or at top level. -/
def stateEndValue (s : Scanner) (c : Char) : Scanner × Code :=
  match s.parseState with
  | [] => stateEndTop { s with step := .endTop, endTop := true } c
  | ps :: rest =>
    if isJSONSpace c then ({ s with step := .endValue }, .scanSkipSpace)
    else
      match ps with
      | .objectKey =>
        if c = ':' then
          ({ s with parseState := .objectValue :: rest, step := .beginValue }, .scanObjectKey)
        else s.fail
      | .objectValue =>
        if c = ',' then
          ({ s with parseState := .objectKey :: rest, step := .beginString }, .scanObjectValue)
        else if c = Char.ofNat 125 then (s.pop, .scanEndObject)
        else s.fail
      | .arrayValue =>
        if c = ',' then ({ s with step := .beginValue }, .scanArrayValue)
        else if c = ']' then (s.pop, .scanEndArray)
        else s.fail

/-- `stateBeginValue`. -/
def stateBeginValue (s : Scanner) (c : Char) : Scanner × Code :=
  if isJSONSpace c then (s, .scanSkipSpace)
  else if c = Char.ofNat 123 then s.push .beginStringOrEmpty .objectKey .scanBeginObject
  else if c = '[' then s.push .beginValueOrEmpty .arrayValue .scanBeginArray
  else if c = dquote then ({ s with step := .inString }, .scanBeginLiteral)
  else if c = '-' then ({ s with step := .neg }, .scanBeginLiteral)
  else if c = '0' then ({ s with step := .zero }, .scanBeginLiteral)
  else if c = 't' then ({ s with step := .lit ['r', 'u', 'e'] }, .scanBeginLiteral)
  else if c = 'f' then ({ s with step := .lit ['a', 'l', 's', 'e'] }, .scanBeginLiteral)
  else if c = 'n' then ({ s with step := .lit ['u', 'l', 'l'] }, .scanBeginLiteral)
  else if 49 ≤ c.toNat ∧ c.toNat ≤ 57 then ({ s with step := .one }, .scanBeginLiteral)
  else s.fail

/-- `stateBeginString`. -/
def stateBeginString (s : Scanner) (c : Char) : Scanner × Code :=
  if isJSONSpace c then (s, .scanSkipSpace)
  else if c = dquote then ({ s with step := .inString }, .scanBeginLiteral)
  else s.fail

/-- `state0`: after a leading `0`, or after the integer digits. -/
def stateZero (s : Scanner) (c : Char) : Scanner × Code :=
  if c = '.' then ({ s with step := .dot }, .scanContinue)
  else if c = 'e' ∨ c = 'E' then ({ s with step := .exp }, .scanContinue)
  else stateEndValue s c

/-- `stateESign`: after `e` and its optional sign a digit is required. -/
def stateExpSign (s : Scanner) (c : Char) : Scanner × Code :=
  if (digitVal c).isSome then ({ s with step := .exp0 }, .scanContinue) else s.fail

/-- One step of the scanner on the rune `c` (`s.step(s, c)`). -/
def Scanner.next (s : Scanner) (c : Char) : Scanner × Code :=
  match s.step with
  | .beginValueOrEmpty =>
    if isJSONSpace c then (s, .scanSkipSpace)
    else if c = ']' then stateEndValue s c
    else stateBeginValue s c
  | .beginValue => stateBeginValue s c
  | .beginStringOrEmpty =>
    if isJSONSpace c then (s, .scanSkipSpace)
    else if c = Char.ofNat 125 then
      stateEndValue { s with parseState := .objectValue :: s.parseState.tail } c
    else stateBeginString s c
  | .beginString => stateBeginString s c
  | .endValue => stateEndValue s c
  | .endTop => stateEndTop s c
  | .inString =>
    if c = dquote then ({ s with step := .endValue }, .scanContinue)
    else if c = backslash then ({ s with step := .inStringEsc }, .scanContinue)
    else if c.toNat < 32 then s.fail
    else (s, .scanContinue)
  | .inStringEsc =>
    if c = 'b' ∨ c = 'f' ∨ c = 'n' ∨ c = 'r' ∨ c = 't' ∨ c = backslash ∨ c = '/' ∨ c = dquote then
      ({ s with step := .inString }, .scanContinue)
    else if c = 'u' then ({ s with step := .inStringEscU 0 }, .scanContinue)
    else s.fail
  | .inStringEscU k =>
    if (hexVal c).isSome then
      ({ s with step := if k < 3 then .inStringEscU (k + 1) else .inString }, .scanContinue)
    else s.fail
  | .neg =>
    if c = '0' then ({ s with step := .zero }, .scanContinue)
    else if 49 ≤ c.toNat ∧ c.toNat ≤ 57 then ({ s with step := .one }, .scanContinue)
    else s.fail
  | .one =>
    if (digitVal c).isSome then ({ s with step := .one }, .scanContinue) else stateZero s c
  | .zero => stateZero s c
  | .dot =>
    if (digitVal c).isSome then ({ s with step := .dot0 }, .scanContinue) else s.fail
  | .dot0 =>
    if (digitVal c).isSome then (s, .scanContinue)
    else if c = 'e' ∨ c = 'E' then ({ s with step := .exp }, .scanContinue)
    else stateEndValue s c
  | .exp =>
    if c = '+' ∨ c = '-' then ({ s with step := .expSign }, .scanContinue)
    else stateExpSign s c
  | .expSign => stateExpSign s c
  | .exp0 =>
    if (digitVal c).isSome then (s, .scanContinue) else stateEndValue s c
  | .lit rest =>
    match rest with
    | [] => s.fail
    | x :: more =>
      if c = x then
        ({ s with step := match more with
                          | [] => .endValue
                          | _ => .lit more }, .scanContinue)
      else s.fail
  | .error => (s, .scanError)

/-- `s.eof()`: whether the input read so far is one complete JSON value. -/
def Scanner.eofOk (s : Scanner) : Bool :=
  if s.err then false
  else if s.endTop then true
  else (s.next ' ').1.endTop

/-- `json.Valid`: the scanner accepts every rune and the end of input. -/
def scanAll : List Char → Scanner → Scanner
  | [], s => s
  | c :: cs, s =>
    if (s.next c).2 = .scanError then (s.next c).1 else scanAll cs (s.next c).1

/-- `json.Valid(body)`. -/
def jsonValid (body : String) : Bool := (scanAll body.data Scanner.init).eofOk

/-- `appendNewline`: a line feed, the prefix, and `depth` copies of the indent. -/
def appendNewline (pfx indent : List Char) (depth : Int) : List Char :=
  newline :: (pfx ++ (List.replicate depth.toNat indent).flatten)

/-- The state of the loop of `appendIndent`. -/
structure Indenter where
  scan : Scanner
  needIndent : Bool
  depth : Int
  dst : List Char
deriving DecidableEq, Repr

/-- What `appendIndent` does with one rune that the scanner neither skipped
nor refused: the delayed line break after an opening bracket, then the rune
itself with the spacing its role asks for. -/
def Indenter.emit (pfx indent : List Char) (st : Indenter) (sc : Scanner) (v : Code) (c : Char) :
    Indenter :=
  let opened : Bool := st.needIndent && v != .scanEndObject && v != .scanEndArray
  let need : Bool := if opened then false else st.needIndent
  let depth : Int := if opened then st.depth + 1 else st.depth
  let dst : List Char := if opened then st.dst ++ appendNewline pfx indent depth else st.dst
  if v = .scanContinue then ⟨sc, need, depth, dst ++ [c]⟩
  else if c = Char.ofNat 123 ∨ c = '[' then ⟨sc, true, depth, dst ++ [c]⟩
  else if c = ',' then ⟨sc, need, depth, dst ++ c :: appendNewline pfx indent depth⟩
  else if c = ':' then ⟨sc, need, depth, dst ++ [c, ' ']⟩
  else if c = Char.ofNat 125 ∨ c = ']' then
    (if need then ⟨sc, false, depth, dst ++ [c]⟩
     else ⟨sc, need, depth - 1, dst ++ (appendNewline pfx indent (depth - 1) ++ [c])⟩)
  else ⟨sc, need, depth, dst ++ [c]⟩

/-- The loop of `appendIndent` over the source; it stops at the first rune the
scanner refuses. -/
def indentLoop (pfx indent : List Char) : List Char → Indenter → Indenter
  | [], st => st
  | c :: cs, st =>
    if (st.scan.next c).2 = .scanSkipSpace then
      indentLoop pfx indent cs { st with scan := (st.scan.next c).1 }
    else if (st.scan.next c).2 = .scanError then { st with scan := (st.scan.next c).1 }
    else indentLoop pfx indent cs (st.emit pfx indent (st.scan.next c).1 (st.scan.next c).2 c)

/-- `json.Indent(&dst, src, prefix, indent)` into an empty buffer: the
re-indented text, or `none` when the scanner reports an error (the buffer is
then left empty). -/
def jsonIndent (src pfx indent : String) : Option String :=
  let st := indentLoop pfx.data indent.data src.data ⟨Scanner.init, false, 0, []⟩
  if st.scan.eofOk then some ⟨st.dst⟩ else none

/-! ## The world: standard input, standard output and `net/http` -/

/-- A request as the program asks for it: the verb, the URL text it was built
from (the argument of `http.Get`, `http.Post` or `http.NewRequest`, as the
program wrote it: `net/http` parses this text and escapes the path itself
when it writes the request line, which is not modelled), the `Content-Type`
header and the body. -/
structure Request where
  method : String
  rawURL : String
  contentType : Option String
  body : Option String
deriving DecidableEq, Repr

/-- What the program reads of an `*http.Response`: the status code and the
outcome of `io.ReadAll(resp.Body)`. -/
structure Response where
  statusCode : Int
  body : Except String String
deriving DecidableEq, Repr

/-- The observable events: text written to standard output, and a request
handed to the HTTP client for sending (`client.Do`, called by the program or
inside `http.Get` and `http.Post`) once `http.NewRequest` has built it. A
request that `http.NewRequest` refuses is never sent and is no event. One
event is one call of the client: the redirects the client may follow on its
own, and whether the transport fails or the service answers, belong to what
the world makes of the call (`Net.roundTrip`). -/
inductive Event
  | print (text : String)
  | send (req : Request)
deriving DecidableEq, Repr

/-- The part of the world the program does not control. `newRequest method
url` is the error of `http.NewRequest(method, url, body)`, if it fails;
`roundTrip k r` is what the client makes of the request `r` when `k` requests
were handed to it before: an error, or the response it returns in the end
(after the redirects it followed, if any). -/
structure Net where
  newRequest : String → String → Option String
  roundTrip : Nat → Request → Except String Response

/-- The state threaded through the program: the unread standard input and the
events so far, oldest first. -/
structure State where
  input : List Char
  trace : List Event
deriving DecidableEq, Repr

/-- The requests among a list of events, in order. -/
def requestsOf : List Event → List Request
  | [] => []
  | .send r :: t => r :: requestsOf t
  | .print _ :: t => requestsOf t

/-- The text printed by a list of events, in order. -/
def printedBy : List Event → List String
  | [] => []
  | .print x :: t => x :: printedBy t
  | .send _ :: t => printedBy t

/-- Appends one event. -/
def State.emit (s : State) (e : Event) : State := { s with trace := s.trace ++ [e] }

/-- `fmt.Print(text)` / `fmt.Printf` with the text already formatted. -/
def State.put (s : State) (text : String) : State := s.emit (.print text)

/-- `fmt.Println(text)`. -/
def State.println (s : State) (text : String) : State := s.emit (.print (text ++ "\n"))

/-- `reader.ReadString('\n')` followed by `strings.TrimSpace`: the trimmed
line, and the state with that line consumed. -/
def State.readLine (s : State) : String × State :=
  ((readTrimmed s.input).1, { s with input := (readTrimmed s.input).2 })

/-- Submits a request to `net/http`: the event is recorded and the world
answers. -/
def State.submit (net : Net) (s : State) (r : Request) : State × Except String Response :=
  (s.emit (.send r), net.roundTrip (requestsOf s.trace).length r)

/-! ## `main.go` -/

/-- `displayResponse`: the status code, then the body, re-indented when
`json.Indent` accepts it and raw otherwise. -/
def displayResponse (resp : Response) (s : State) : State :=
  let s1 := s.put ("HTTP状态码: " ++ formatInt resp.statusCode ++ "\n")
  match resp.body with
  | .error e => s1.put ("读取响应体失败: " ++ e ++ "\n")
  | .ok body =>
    match jsonIndent body "" "  " with
    | none => (s1.println "响应内容:").println body
    | some prettyJSON => (s1.println "响应内容:").println prettyJSON

/-- The common tail of the four helpers: the transport error printed, or the
response displayed. -/
def finishRequest (r : State × Except String Response) : State :=
  match r.2 with
  | .error e => r.1.put ("请求失败: " ++ e ++ "\n")
  | .ok resp => displayResponse resp r.1

/-- `sendGetRequest`. `http.Get(url)` builds its request with
`http.NewRequest("GET", url, nil)` and, when that fails, returns the error
without sending anything; otherwise it hands the request to the client. The
program prints either error with the same `Printf`. -/
def sendGetRequest (net : Net) (url : String) (s : State) : State :=
  match net.newRequest "GET" url with
  | some e => s.put ("请求失败: " ++ e ++ "\n")
  | none => finishRequest (s.submit net ⟨"GET", url, none, none⟩)

/-- `sendPostRequest`, the body being an `Order`. `http.Post` builds its
request with `http.NewRequest` as well; the one URL this program posts to is
its base URL followed by the fixed path `/api/orders`, with no user input in
it, and is taken to be well formed, so that this failure is not modelled. -/
def sendPostRequest (net : Net) (url : String) (body : Order) (s : State) : State :=
  match marshal body with
  | .error e => s.put ("JSON序列化失败: " ++ e ++ "\n")
  | .ok jsonData => finishRequest (s.submit net ⟨"POST", url, some "application/json", some jsonData⟩)

/-- `sendPutRequest`, the body being an `Order`. -/
def sendPutRequest (net : Net) (url : String) (body : Order) (s : State) : State :=
  match marshal body with
  | .error e => s.put ("JSON序列化失败: " ++ e ++ "\n")
  | .ok jsonData =>
    match net.newRequest "PUT" url with
    | some e => s.put ("创建请求失败: " ++ e ++ "\n")
    | none => finishRequest (s.submit net ⟨"PUT", url, some "application/json", some jsonData⟩)

/-- `sendDeleteRequest`. -/
def sendDeleteRequest (net : Net) (url : String) (s : State) : State :=
  match net.newRequest "DELETE" url with
  | some e => s.put ("创建请求失败: " ++ e ++ "\n")
  | none => finishRequest (s.submit net ⟨"DELETE", url, none, none⟩)

/-- `printMenu`. -/
def printMenu (s : State) : State :=
  (((((((((s.println "======== 订单服务请求工具 ========").println "1. 健康检查").println
    "2. ready检查").println "3. 创建订单").println "4. 列出所有订单").println
    "5. 根据ID获取订单").println "6. 更新订单").println "7. 删除订单").println
    "8. 退出").put "请选择操作 (1-8): "

/-- `checkHealth`. -/
def checkHealth (net : Net) (baseURL : String) (s : State) : State :=
  sendGetRequest net (baseURL ++ "/health") (s.println "=== 健康检查 ===")

/-- `checkReady`. -/
def checkReady (net : Net) (baseURL : String) (s : State) : State :=
  sendGetRequest net (baseURL ++ "/ready") (s.println "=== ready检查 ===")

/-- `createNewOrder`. -/
def createNewOrder (net : Net) (baseURL : String) (s : State) : State :=
  let p := ((s.println "=== 创建订单 ===").put "请输入产品ID: ").readLine
  let q := (p.2.put "请输入数量: ").readLine
  match atoi q.1 with
  | none => q.2.println "数量必须是数字"
  | some quantity =>
    let a := (q.2.put "请输入金额: ").readLine
    match parseFloat a.1 with
    | .error _ => a.2.println "金额必须是数字"
    | .ok amount =>
      sendPostRequest net (baseURL ++ "/api/orders") ⟨"", p.1, quantity, amount, ""⟩ a.2

/-- `listAllOrders`. -/
def listAllOrders (net : Net) (baseURL : String) (s : State) : State :=
  sendGetRequest net (baseURL ++ "/api/orders") (s.println "=== 所有订单列表 ===")

/-- `getOrderByID`. -/
def getOrderByID (net : Net) (baseURL : String) (s : State) : State :=
  let i := ((s.println "=== 根据ID获取订单 ===").put "请输入订单ID: ").readLine
  sendGetRequest net (baseURL ++ "/api/orders/" ++ i.1) i.2

/-- `updateOrderByID`. -/
def updateOrderByID (net : Net) (baseURL : String) (s : State) : State :=
  let i := ((s.println "=== 更新订单 ===").put "请输入订单ID: ").readLine
  let p := (i.2.put "请输入产品ID: ").readLine
  let q := (p.2.put "请输入数量: ").readLine
  match atoi q.1 with
  | none => q.2.println "数量必须是数字"
  | some quantity =>
    let a := (q.2.put "请输入金额: ").readLine
    match parseFloat a.1 with
    | .error _ => a.2.println "金额必须是数字"
    | .ok amount =>
      let t := (a.2.put "请输入订单状态: ").readLine
      sendPutRequest net (baseURL ++ "/api/orders/" ++ i.1) ⟨"", p.1, quantity, amount, t.1⟩ t.2

/-- `deleteOrderByID`. -/
def deleteOrderByID (net : Net) (baseURL : String) (s : State) : State :=
  let i := ((s.println "=== 删除订单 ===").put "请输入订单ID: ").readLine
  sendDeleteRequest net (baseURL ++ "/api/orders/" ++ i.1) i.2

/-- The base URL compiled into `main`. -/
def baseURL : String := "http://localhost:8080"

/-- The end of a loop iteration that did not exit: the prompt, and one line
read and dropped. -/
def pressEnter (s : State) : State :=
  (s.println "\n按Enter键继续...").readLine.2

/-- One iteration of the loop of `main`: the menu, one trimmed line, the
dispatch. The flag tells whether `main` returned (choice `"8"`); otherwise
the iteration ends with the wait for Enter. -/
def mainIteration (net : Net) (s : State) : State × Bool :=
  let c := (printMenu s).readLine
  if c.1 = "1" then (pressEnter (checkHealth net baseURL c.2), false)
  else if c.1 = "2" then (pressEnter (checkReady net baseURL c.2), false)
  else if c.1 = "3" then (pressEnter (createNewOrder net baseURL c.2), false)
  else if c.1 = "4" then (pressEnter (listAllOrders net baseURL c.2), false)
  else if c.1 = "5" then (pressEnter (getOrderByID net baseURL c.2), false)
  else if c.1 = "6" then (pressEnter (updateOrderByID net baseURL c.2), false)
  else if c.1 = "7" then (pressEnter (deleteOrderByID net baseURL c.2), false)
  else if c.1 = "8" then (c.2.println "退出程序...", true)
  else (pressEnter (c.2.println "无效的选择，请重试。"), false)

/-- The loop of `main`, run for at most `n` iterations: the state reached and
whether `main` has returned. -/
def mainLoop (net : Net) : Nat → State → State × Bool
  | 0, s => (s, false)
  | n + 1, s =>
    if (mainIteration net s).2 then mainIteration net s
    else mainLoop net n (mainIteration net s).1

/-! ## Request construction as `net/http` performs it, and two concrete worlds -/

/-- `stringContainsCTLByte` of `net/url`: an ASCII control character. -/
def stringContainsCTLByte (s : List Char) : Bool :=
  s.any (fun c => c.toNat < 32 || c.toNat == 127)

/-- The first malformed escape of a path or fragment, as `unescape` of
`net/url` reports it: a `%` not followed by two hexadecimal digits, with up
to two runes after it (the library cuts after three bytes, which is the same
on ASCII text). -/
def badEscape : List Char → Option (List Char)
  | [] => none
  | c :: cs =>
    if c = '%' then
      match cs with
      | a :: b :: r => if (hexVal a).isSome && (hexVal b).isSome then badEscape r else some [c, a, b]
      | _ => some (c :: cs)
    else badEscape cs

/-- How `strconv.Quote` writes one rune: quote and backslash escaped, the
printable ASCII runes as they are, the control characters as `\a`, `\b`,
`\f`, `\n`, `\r`, `\t`, `\v` or `\xNN`. A rune beyond ASCII is written as
it is, which is what the library does for the printable ones. -/
def quoteRune (c : Char) : List Char :=
  let n := c.toNat
  if c = dquote ∨ c = backslash then [backslash, c]
  else if 32 ≤ n ∧ n < 127 then [c]
  else if n = 7 then [backslash, 'a']
  else if n = 8 then [backslash, 'b']
  else if n = 12 then [backslash, 'f']
  else if n = 10 then [backslash, 'n']
  else if n = 13 then [backslash, 'r']
  else if n = 9 then [backslash, 't']
  else if n = 11 then [backslash, 'v']
  else if n < 32 ∨ n = 127 then [backslash, 'x', hexDigit (n / 16), hexDigit (n % 16)]
  else [c]

/-- `strconv.Quote`, the `%q` of `fmt`. -/
def quote (s : List Char) : String := ⟨dquote :: ((s.map quoteRune).flatten ++ [dquote])⟩

/-- The error of `url.Parse`, hence of `http.NewRequest`, on a URL whose
scheme and authority are well formed, as those of every URL this program
builds from its base URL are: a control character before the fragment, or a
malformed `%` escape in the path or in the fragment (the query is not
checked). The text is that of `(*url.Error).Error`: the operation `parse`,
the quoted URL (without its fragment unless the fragment is at fault) and
the reason. -/
def requestURLError (url : String) : Option String :=
  let u := url.data.takeWhile (fun c => c != '#')
  let frag := (url.data.dropWhile (fun c => c != '#')).drop 1
  if stringContainsCTLByte u then
    some ("parse " ++ quote u ++ ": net/url: invalid control character in URL")
  else
    match badEscape (u.takeWhile (fun c => c != '?')) with
    | some e => some ("parse " ++ quote u ++ ": invalid URL escape " ++ quote e)
    | none =>
      match badEscape frag with
      | some e => some ("parse " ++ quote url.data ++ ": invalid URL escape " ++ quote e)
      | none => none

/-- The operation a `*url.Error` of the client names: the verb with only its
first letter in upper case (`urlErrorOp` of `net/http`). -/
def urlErrorOp (method : String) : String :=
  match method.data with
  | [] => "Get"
  | c :: cs => ⟨c :: cs.map toLowerASCII⟩

/-- A world in which requests are built as `net/http` builds them and the
service is not running: the client fails to connect for every request. -/
def offline : Net :=
  ⟨fun _ url => requestURLError url,
   fun _ r => .error (urlErrorOp r.method ++ " " ++ quote r.rawURL.data ++
     ": dial tcp 127.0.0.1:8080: connect: connection refused")⟩

/-- A world in which requests are built as `net/http` builds them and the
service answers each one with status 200 and a small JSON document. -/
def answering : Net :=
  ⟨fun _ url => requestURLError url, fun _ _ => .ok ⟨200, .ok "\x7b\"status\":\"ok\"\x7d"⟩⟩

/-! ## Vocabulary of the statements -/

/-- The `k`-th line of the input (from `0`), as the program reads it:
`ReadString` then `TrimSpace`. -/
def lineAt (input : List Char) : Nat → String
  | 0 => (readTrimmed input).1
  | k + 1 => lineAt (readTrimmed input).2 k

/-- The input left unread after `k` lines were read. -/
def afterLines (input : List Char) : Nat → List Char
  | 0 => input
  | k + 1 => afterLines (readTrimmed input).2 k

/-- The ten events of `printMenu`. -/
def menuEvents : List Event :=
  [.print "======== 订单服务请求工具 ========\n", .print "1. 健康检查\n", .print "2. ready检查\n",
   .print "3. 创建订单\n", .print "4. 列出所有订单\n", .print "5. 根据ID获取订单\n",
   .print "6. 更新订单\n", .print "7. 删除订单\n", .print "8. 退出\n", .print "请选择操作 (1-8): "]

/-- The events of an iteration that read an unknown choice: the menu, the
rejection, the prompt for Enter. -/
def idleEvents : List Event :=
  menuEvents ++ [.print "无效的选择，请重试。\n", .print "\n按Enter键继续...\n"]

/-- The state at the start of iteration `k` of the loop (from `0`), were the
loop never to return. -/
def stateAt (net : Net) (s : State) : Nat → State
  | 0 => s
  | k + 1 => stateAt net (mainIteration net s).1 k

/-- The JSON text of an order without id: an object with the members
`product_id`, `quantity`, `amount`, in this order, followed by `status` when
the status is not empty; `amount` is the text of the amount. -/
def orderJSON (productID : String) (quantity : Int) (amount : String) (status : String) : String :=
  "\x7b\"product_id\":" ++ encodeString productID ++ ",\"quantity\":" ++ formatInt quantity ++
    ",\"amount\":" ++ amount ++
    (if status = "" then "" else ",\"status\":" ++ encodeString status) ++ "\x7d"

/-- The banner and prompts `createNewOrder` prints up to the quantity. -/
def createPrompts : List Event :=
  [.print "=== 创建订单 ===\n", .print "请输入产品ID: ", .print "请输入数量: "]

/-- The banner and prompts `updateOrderByID` prints up to the quantity. -/
def updatePrompts : List Event :=
  [.print "=== 更新订单 ===\n", .print "请输入订单ID: ", .print "请输入产品ID: ",
   .print "请输入数量: "]

/-! ## Lemmas -/

theorem requestsOf_append (a b : List Event) :
    requestsOf (a ++ b) = requestsOf a ++ requestsOf b := by
  induction a with
  | nil => rfl
  | cons e t ih => cases e <;> simp [requestsOf, ih]

theorem requestsOf_menuEvents : requestsOf menuEvents = [] := by
  simp [menuEvents, requestsOf]

theorem printMenu_eq (s : State) : printMenu s = ⟨s.input, s.trace ++ menuEvents⟩ := by
  simp [printMenu, State.println, State.put, State.emit, menuEvents]

theorem readTrimmed_nil : readTrimmed [] = ("", []) := by
  simp [readTrimmed, readString, trimSpaceL]

theorem mainIteration_exit (net : Net) (s : State) (h : lineAt s.input 0 = "8") :
    mainIteration net s =
      (⟨afterLines s.input 1, s.trace ++ menuEvents ++ [.print "退出程序...\n"]⟩, true) := by
  simp only [lineAt] at h
  simp [mainIteration, printMenu_eq, State.readLine, h, State.println, State.emit, afterLines]

theorem mainIteration_flag (net : Net) (s : State) :
    (mainIteration net s).2 = true ↔ lineAt s.input 0 = "8" := by
  unfold mainIteration
  simp only [printMenu_eq, State.readLine, lineAt]
  constructor
  · intro h
    split_ifs at h with h1 h2 h3 h4 h5 h6 h7 h8
    simp_all
  · intro h
    simp [h]

theorem mainIteration_invalid (net : Net) (s : State)
    (h : lineAt s.input 0 ∉ ["1", "2", "3", "4", "5", "6", "7", "8"]) :
    mainIteration net s = (⟨afterLines s.input 2, s.trace ++ idleEvents⟩, false) := by
  simp only [lineAt, List.mem_cons, List.mem_singleton, not_or, List.not_mem_nil, or_false] at h
  obtain ⟨h1, h2, h3, h4, h5, h6, h7, h8⟩ := h
  simp [mainIteration, printMenu_eq, State.readLine, h1, h2, h3, h4, h5, h6, h7, h8, pressEnter,
    State.println, State.emit, afterLines, idleEvents]

theorem mainLoop_exhausted (net : Net) (n : Nat) (t : List Event) :
    mainLoop net n ⟨[], t⟩ = (⟨[], t ++ (List.replicate n idleEvents).flatten⟩, false) := by
  induction n generalizing t with
  | zero => simp [mainLoop]
  | succ k ih =>
    have hstep : mainIteration net ⟨[], t⟩ = (⟨[], t ++ idleEvents⟩, false) := by
      have h := mainIteration_invalid net ⟨[], t⟩ (by simp [lineAt, readTrimmed_nil])
      simpa [afterLines, readTrimmed_nil] using h
    simp [mainLoop, hstep, ih, List.replicate_succ]

theorem mainLoop_returns (net : Net) (n : Nat) (s : State) (h : (mainLoop net n s).2 = true) :
    ∃ k, k < n ∧ lineAt (stateAt net s k).input 0 = "8" := by
  induction n generalizing s with
  | zero => simp [mainLoop] at h
  | succ m ih =>
    by_cases hf : (mainIteration net s).2 = true
    · exact ⟨0, Nat.succ_pos m, (mainIteration_flag net s).1 hf⟩
    · simp only [mainLoop, hf] at h
      obtain ⟨k, hk, h8⟩ := ih (mainIteration net s).1 (by simpa using h)
      exact ⟨k + 1, Nat.succ_lt_succ hk, by simpa [stateAt] using h8⟩

theorem key_product_id : encodeString "product_id" = "\"product_id\"" := by decide

theorem key_quantity : encodeString "quantity" = "\"quantity\"" := by decide

theorem key_amount : encodeString "amount" = "\"amount\"" := by decide

theorem key_status : encodeString "status" = "\"status\"" := by decide

theorem emit_scan (pfx indent : List Char) (st : Indenter) (sc : Scanner) (v : Code) (c : Char) :
    (st.emit pfx indent sc v c).scan = sc := by
  unfold Indenter.emit
  simp only
  split_ifs <;> rfl

theorem indentLoop_scan (pfx indent : List Char) (cs : List Char) (st : Indenter) :
    (indentLoop pfx indent cs st).scan = scanAll cs st.scan := by
  induction cs generalizing st with
  | nil => rfl
  | cons c cs ih =>
    simp only [indentLoop, scanAll]
    by_cases h1 : (st.scan.next c).2 = .scanSkipSpace
    · simp [h1, ih]
    · by_cases h2 : (st.scan.next c).2 = .scanError
      · simp [h1, h2]
      · simp [h1, h2, ih, emit_scan]

theorem jsonIndent_isSome (src pfx indent : String) :
    (jsonIndent src pfx indent).isSome = jsonValid src := by
  unfold jsonIndent jsonValid
  simp only [indentLoop_scan]
  split_ifs with h <;> simp [h]

theorem encodeFloat_isFinite (f : Float64) :
    (∃ t, encodeFloat f = .ok t) ↔ f.isFinite = true := by
  cases f with
  | finite neg m e =>
    simp only [Float64.isFinite, iff_true]
    unfold encodeFloat
    simp only
    split_ifs <;> exact ⟨_, rfl⟩
  | inf neg => simp [encodeFloat, Float64.isFinite]
  | nan => simp [encodeFloat, Float64.isFinite]

theorem encodeFloat_not_finite (f : Float64) (h : f.isFinite = false) :
    encodeFloat f = .error ("json: unsupported value: " ++ formatSpecial f) := by
  cases f with
  | finite neg m e => simp [Float64.isFinite] at h
  | inf neg => rfl
  | nan => rfl

theorem marshal_ok (productID : String) (quantity : Int) (amount : Float64) (status t : String)
    (h : encodeFloat amount = .ok t) :
    marshal ⟨"", productID, quantity, amount, status⟩ = .ok (orderJSON productID quantity t status) := by
  by_cases hs : status = ""
  · have hm : marshal ⟨"", productID, quantity, amount, status⟩ =
        .ok ("\x7b" ++ (encodeString "product_id" ++ ":" ++ encodeString productID ++ "," ++
          (encodeString "quantity" ++ ":" ++ formatInt quantity ++ "," ++
            (encodeString "amount" ++ ":" ++ t))) ++ "\x7d") := by
      simp [marshal, Order.members, encodeMembers, encodeValue, h, hs]
    rw [hm, key_product_id, key_quantity, key_amount]
    congr 1
    apply String.ext
    simp [orderJSON, String.data_append, hs]
  · have hm : marshal ⟨"", productID, quantity, amount, status⟩ =
        .ok ("\x7b" ++ (encodeString "product_id" ++ ":" ++ encodeString productID ++ "," ++
          (encodeString "quantity" ++ ":" ++ formatInt quantity ++ "," ++
            (encodeString "amount" ++ ":" ++ t ++ "," ++
              (encodeString "status" ++ ":" ++ encodeString status)))) ++ "\x7d") := by
      simp [marshal, Order.members, encodeMembers, encodeValue, h, hs]
    rw [hm, key_product_id, key_quantity, key_amount, key_status]
    congr 1
    apply String.ext
    simp [orderJSON, String.data_append, hs]

theorem marshal_error (o : Order) (h : o.Amount.isFinite = false) :
    marshal o = .error ("json: unsupported value: " ++ formatSpecial o.Amount) := by
  have hf := encodeFloat_not_finite o.Amount h
  by_cases hi : o.ID = "" <;> by_cases hs : o.Status = "" <;>
    simp [marshal, Order.members, encodeMembers, encodeValue, hf, hi, hs]

theorem marshal_isFinite (o : Order) : (∃ t, marshal o = .ok t) ↔ o.Amount.isFinite = true := by
  constructor
  · rintro ⟨t, ht⟩
    by_contra hne
    have hfalse : o.Amount.isFinite = false := by simpa using hne
    rw [marshal_error o hfalse] at ht
    cases ht
  · intro h
    obtain ⟨t, ht⟩ := (encodeFloat_isFinite o.Amount).2 h
    by_cases hi : o.ID = "" <;> by_cases hs : o.Status = "" <;>
      simp [marshal, Order.members, encodeMembers, encodeValue, ht, hi, hs]

theorem requestsOf_put (s : State) (t : String) :
    requestsOf (s.put t).trace = requestsOf s.trace := by
  simp [State.put, State.emit, requestsOf_append, requestsOf]

theorem requestsOf_println (s : State) (t : String) :
    requestsOf (s.println t).trace = requestsOf s.trace := by
  simp [State.println, State.emit, requestsOf_append, requestsOf]

theorem readLine_trace (s : State) : s.readLine.2.trace = s.trace := rfl

theorem requestsOf_pressEnter (s : State) :
    requestsOf (pressEnter s).trace = requestsOf s.trace := by
  simp [pressEnter, readLine_trace, requestsOf_println]

theorem requestsOf_displayResponse (resp : Response) (s : State) :
    requestsOf (displayResponse resp s).trace = requestsOf s.trace := by
  unfold displayResponse
  simp only
  split
  · simp [requestsOf_put]
  · split <;> simp [requestsOf_put, requestsOf_println]

theorem requestsOf_finishRequest (r : State × Except String Response) :
    requestsOf (finishRequest r).trace = requestsOf r.1.trace := by
  unfold finishRequest
  split
  · simp [requestsOf_put]
  · simp [requestsOf_displayResponse]

theorem requestsOf_submit (net : Net) (s : State) (r : Request) :
    requestsOf (s.submit net r).1.trace = requestsOf s.trace ++ [r] := by
  simp [State.submit, State.emit, requestsOf_append, requestsOf]

theorem requestsOf_sendGetRequest (net : Net) (url : String) (s : State) :
    requestsOf (sendGetRequest net url s).trace =
      requestsOf s.trace ++
        (match net.newRequest "GET" url with
         | none => [⟨"GET", url, none, none⟩]
         | some _ => []) := by
  unfold sendGetRequest
  cases h : net.newRequest "GET" url <;>
    simp [requestsOf_put, requestsOf_finishRequest, requestsOf_submit]

theorem requestsOf_sendDeleteRequest (net : Net) (url : String) (s : State) :
    requestsOf (sendDeleteRequest net url s).trace =
      requestsOf s.trace ++
        (match net.newRequest "DELETE" url with
         | none => [⟨"DELETE", url, none, none⟩]
         | some _ => []) := by
  unfold sendDeleteRequest
  cases h : net.newRequest "DELETE" url <;>
    simp [requestsOf_put, requestsOf_finishRequest, requestsOf_submit]

theorem requestsOf_sendPostRequest (net : Net) (url : String) (body : Order) (s : State) :
    requestsOf (sendPostRequest net url body s).trace =
      requestsOf s.trace ++
        (match marshal body with
         | .ok t => [⟨"POST", url, some "application/json", some t⟩]
         | .error _ => []) := by
  unfold sendPostRequest
  cases h : marshal body <;>
    simp [requestsOf_put, requestsOf_finishRequest, requestsOf_submit]

theorem requestsOf_sendPutRequest (net : Net) (url : String) (body : Order) (s : State) :
    requestsOf (sendPutRequest net url body s).trace =
      requestsOf s.trace ++
        (match marshal body, net.newRequest "PUT" url with
         | .ok t, none => [⟨"PUT", url, some "application/json", some t⟩]
         | _, _ => []) := by
  unfold sendPutRequest
  cases hm : marshal body <;> cases hn : net.newRequest "PUT" url <;>
    simp [requestsOf_put, requestsOf_finishRequest, requestsOf_submit]

theorem requestsOf_createPrompts : requestsOf createPrompts = [] := rfl

theorem requestsOf_updatePrompts : requestsOf updatePrompts = [] := rfl

theorem createNewOrder_eq (net : Net) (base : String) (s : State) :
    createNewOrder net base s =
      match atoi (lineAt s.input 1) with
      | none => ⟨afterLines s.input 2, s.trace ++ createPrompts ++ [.print "数量必须是数字\n"]⟩
      | some quantity =>
        match parseFloat (lineAt s.input 2) with
        | .error _ =>
          ⟨afterLines s.input 3,
            s.trace ++ createPrompts ++ [.print "请输入金额: ", .print "金额必须是数字\n"]⟩
        | .ok amount =>
          sendPostRequest net (base ++ "/api/orders") ⟨"", lineAt s.input 0, quantity, amount, ""⟩
            ⟨afterLines s.input 3, s.trace ++ createPrompts ++ [.print "请输入金额: "]⟩ := by
  simp only [createNewOrder, State.readLine, State.put, State.println, State.emit, lineAt,
    afterLines, createPrompts]
  split <;> simp_all

theorem updateOrderByID_eq (net : Net) (base : String) (s : State) :
    updateOrderByID net base s =
      match atoi (lineAt s.input 2) with
      | none => ⟨afterLines s.input 3, s.trace ++ updatePrompts ++ [.print "数量必须是数字\n"]⟩
      | some quantity =>
        match parseFloat (lineAt s.input 3) with
        | .error _ =>
          ⟨afterLines s.input 4,
            s.trace ++ updatePrompts ++ [.print "请输入金额: ", .print "金额必须是数字\n"]⟩
        | .ok amount =>
          sendPutRequest net (base ++ "/api/orders/" ++ lineAt s.input 0)
            ⟨"", lineAt s.input 1, quantity, amount, lineAt s.input 4⟩
            ⟨afterLines s.input 5,
              s.trace ++ updatePrompts ++ [.print "请输入金额: ", .print "请输入订单状态: "]⟩ := by
  simp only [updateOrderByID, State.readLine, State.put, State.println, State.emit, lineAt,
    afterLines, updatePrompts]
  split <;> simp_all

theorem getOrderByID_eq (net : Net) (base : String) (s : State) :
    getOrderByID net base s =
      sendGetRequest net (base ++ "/api/orders/" ++ lineAt s.input 0)
        ⟨afterLines s.input 1,
          s.trace ++ [.print "=== 根据ID获取订单 ===\n", .print "请输入订单ID: "]⟩ := by
  simp [getOrderByID, State.readLine, State.put, State.println, State.emit, lineAt, afterLines]

theorem deleteOrderByID_eq (net : Net) (base : String) (s : State) :
    deleteOrderByID net base s =
      sendDeleteRequest net (base ++ "/api/orders/" ++ lineAt s.input 0)
        ⟨afterLines s.input 1,
          s.trace ++ [.print "=== 删除订单 ===\n", .print "请输入订单ID: "]⟩ := by
  simp [deleteOrderByID, State.readLine, State.put, State.println, State.emit, lineAt, afterLines]

theorem trace_put (s : State) (t : String) : (s.put t).trace = s.trace ++ [.print t] := rfl

theorem trace_println (s : State) (t : String) :
    (s.println t).trace = s.trace ++ [.print (t ++ "\n")] := rfl

theorem prefix_put (s : State) (t : String) : s.trace <+: (s.put t).trace :=
  List.prefix_append _ _

theorem prefix_println (s : State) (t : String) : s.trace <+: (s.println t).trace :=
  List.prefix_append _ _

theorem prefix_displayResponse (resp : Response) (s : State) :
    s.trace <+: (displayResponse resp s).trace := by
  unfold displayResponse
  simp only
  split
  · exact (prefix_put _ _).trans (prefix_put _ _)
  · split <;> exact ((prefix_put _ _).trans (prefix_println _ _)).trans (prefix_println _ _)

theorem prefix_finishRequest (r : State × Except String Response) :
    r.1.trace <+: (finishRequest r).trace := by
  unfold finishRequest
  split
  · exact prefix_put _ _
  · exact prefix_displayResponse _ _

theorem prefix_submit (net : Net) (s : State) (r : Request) :
    s.trace <+: (s.submit net r).1.trace :=
  List.prefix_append _ _

theorem prefix_sendGetRequest (net : Net) (url : String) (s : State) :
    s.trace <+: (sendGetRequest net url s).trace := by
  unfold sendGetRequest
  split
  · exact prefix_put _ _
  · exact (prefix_submit net s _).trans (prefix_finishRequest _)

theorem prefix_sendDeleteRequest (net : Net) (url : String) (s : State) :
    s.trace <+: (sendDeleteRequest net url s).trace := by
  unfold sendDeleteRequest
  split
  · exact prefix_put _ _
  · exact (prefix_submit net s _).trans (prefix_finishRequest _)

theorem prefix_sendPostRequest (net : Net) (url : String) (body : Order) (s : State) :
    s.trace <+: (sendPostRequest net url body s).trace := by
  unfold sendPostRequest
  split
  · exact prefix_put _ _
  · exact (prefix_submit net s _).trans (prefix_finishRequest _)

theorem prefix_sendPutRequest (net : Net) (url : String) (body : Order) (s : State) :
    s.trace <+: (sendPutRequest net url body s).trace := by
  unfold sendPutRequest
  split
  · exact prefix_put _ _
  · split
    · exact prefix_put _ _
    · exact (prefix_submit net s _).trans (prefix_finishRequest _)

theorem prefix_createNewOrder (net : Net) (base : String) (s : State) :
    s.trace <+: (createNewOrder net base s).trace := by
  rw [createNewOrder_eq]
  split
  · exact ⟨_, (List.append_assoc _ _ _).symm⟩
  · split
    · exact ⟨_, (List.append_assoc _ _ _).symm⟩
    · refine List.IsPrefix.trans ?_ (prefix_sendPostRequest net _ _ _)
      exact ⟨_, (List.append_assoc _ _ _).symm⟩

theorem prefix_updateOrderByID (net : Net) (base : String) (s : State) :
    s.trace <+: (updateOrderByID net base s).trace := by
  rw [updateOrderByID_eq]
  split
  · exact ⟨_, (List.append_assoc _ _ _).symm⟩
  · split
    · exact ⟨_, (List.append_assoc _ _ _).symm⟩
    · refine List.IsPrefix.trans ?_ (prefix_sendPutRequest net _ _ _)
      exact ⟨_, (List.append_assoc _ _ _).symm⟩

theorem prefix_getOrderByID (net : Net) (base : String) (s : State) :
    s.trace <+: (getOrderByID net base s).trace := by
  rw [getOrderByID_eq]
  refine List.IsPrefix.trans ?_ (prefix_sendGetRequest net _ _)
  exact List.prefix_append _ _

theorem prefix_deleteOrderByID (net : Net) (base : String) (s : State) :
    s.trace <+: (deleteOrderByID net base s).trace := by
  rw [deleteOrderByID_eq]
  refine List.IsPrefix.trans ?_ (prefix_sendDeleteRequest net _ _)
  exact List.prefix_append _ _

theorem prefix_pressEnter (s : State) : s.trace <+: (pressEnter s).trace :=
  List.prefix_append _ _

/-- What `mainIteration` runs after the menu and the choice line. -/
theorem mainIteration_eq (net : Net) (s : State) :
    mainIteration net s =
      if lineAt s.input 0 = "1" then
        (pressEnter (checkHealth net baseURL ⟨afterLines s.input 1, s.trace ++ menuEvents⟩), false)
      else if lineAt s.input 0 = "2" then
        (pressEnter (checkReady net baseURL ⟨afterLines s.input 1, s.trace ++ menuEvents⟩), false)
      else if lineAt s.input 0 = "3" then
        (pressEnter (createNewOrder net baseURL ⟨afterLines s.input 1, s.trace ++ menuEvents⟩),
          false)
      else if lineAt s.input 0 = "4" then
        (pressEnter (listAllOrders net baseURL ⟨afterLines s.input 1, s.trace ++ menuEvents⟩),
          false)
      else if lineAt s.input 0 = "5" then
        (pressEnter (getOrderByID net baseURL ⟨afterLines s.input 1, s.trace ++ menuEvents⟩),
          false)
      else if lineAt s.input 0 = "6" then
        (pressEnter (updateOrderByID net baseURL ⟨afterLines s.input 1, s.trace ++ menuEvents⟩),
          false)
      else if lineAt s.input 0 = "7" then
        (pressEnter (deleteOrderByID net baseURL ⟨afterLines s.input 1, s.trace ++ menuEvents⟩),
          false)
      else if lineAt s.input 0 = "8" then
        (⟨afterLines s.input 1, s.trace ++ menuEvents ++ [.print "退出程序...\n"]⟩, true)
      else (⟨afterLines s.input 2, s.trace ++ idleEvents⟩, false) := by
  simp [mainIteration, printMenu_eq, State.readLine, lineAt, afterLines, pressEnter,
    State.println, State.emit, idleEvents]

theorem mainIteration_menu_first (net : Net) (s : State) :
    s.trace ++ menuEvents <+: (mainIteration net s).1.trace := by
  rw [mainIteration_eq]
  have hp : ∀ (st : State) (t : String) (url : String),
      st.trace <+: (pressEnter (sendGetRequest net url (st.println t))).trace := fun st t url =>
    ((prefix_println st t).trans (prefix_sendGetRequest net url _)).trans (prefix_pressEnter _)
  split_ifs
  · exact hp ⟨afterLines s.input 1, s.trace ++ menuEvents⟩ _ _
  · exact hp ⟨afterLines s.input 1, s.trace ++ menuEvents⟩ _ _
  · exact (prefix_createNewOrder net baseURL ⟨afterLines s.input 1, s.trace ++ menuEvents⟩).trans
      (prefix_pressEnter _)
  · exact hp ⟨afterLines s.input 1, s.trace ++ menuEvents⟩ _ _
  · exact (prefix_getOrderByID net baseURL ⟨afterLines s.input 1, s.trace ++ menuEvents⟩).trans
      (prefix_pressEnter _)
  · exact (prefix_updateOrderByID net baseURL ⟨afterLines s.input 1, s.trace ++ menuEvents⟩).trans
      (prefix_pressEnter _)
  · exact (prefix_deleteOrderByID net baseURL ⟨afterLines s.input 1, s.trace ++ menuEvents⟩).trans
      (prefix_pressEnter _)
  · exact List.prefix_append _ _
  · exact ⟨[.print "无效的选择，请重试。\n", .print "\n按Enter键继续...\n"], by simp [idleEvents]⟩

/-! ## The claims -/

/-- C1. In `createNewOrder` and in `updateOrderByID`, on every input: when the
trimmed quantity line is refused by `strconv.Atoi`, the handler prints
"数量必须是数字" after its prompts and returns; when the quantity is accepted
and the trimmed amount line is refused by `strconv.ParseFloat`, it prints
"金额必须是数字" and returns. In either case the handler emits nothing but its
prompts and that message: no request is submitted. -/
theorem numeric_error_aborts (net : Net) (base : String) (s : State) :
    (atoi (lineAt s.input 1) = none →
      createNewOrder net base s =
        ⟨afterLines s.input 2, s.trace ++ createPrompts ++ [.print "数量必须是数字\n"]⟩) ∧
    ((∃ q, atoi (lineAt s.input 1) = some q) →
      (∃ e, parseFloat (lineAt s.input 2) = .error e) →
      createNewOrder net base s =
        ⟨afterLines s.input 3,
          s.trace ++ createPrompts ++ [.print "请输入金额: ", .print "金额必须是数字\n"]⟩) ∧
    (atoi (lineAt s.input 2) = none →
      updateOrderByID net base s =
        ⟨afterLines s.input 3, s.trace ++ updatePrompts ++ [.print "数量必须是数字\n"]⟩) ∧
    ((∃ q, atoi (lineAt s.input 2) = some q) →
      (∃ e, parseFloat (lineAt s.input 3) = .error e) →
      updateOrderByID net base s =
        ⟨afterLines s.input 4,
          s.trace ++ updatePrompts ++ [.print "请输入金额: ", .print "金额必须是数字\n"]⟩) ∧
    ((atoi (lineAt s.input 1) = none ∨ ∃ e, parseFloat (lineAt s.input 2) = .error e) →
      requestsOf (createNewOrder net base s).trace = requestsOf s.trace) ∧
    ((atoi (lineAt s.input 2) = none ∨ ∃ e, parseFloat (lineAt s.input 3) = .error e) →
      requestsOf (updateOrderByID net base s).trace = requestsOf s.trace) := by
  refine ⟨?_, ?_, ?_, ?_, ?_, ?_⟩
  · intro h
    rw [createNewOrder_eq, h]
  · rintro ⟨q, hq⟩ ⟨e, he⟩
    rw [createNewOrder_eq, hq]
    simp only [he]
  · intro h
    rw [updateOrderByID_eq, h]
  · rintro ⟨q, hq⟩ ⟨e, he⟩
    rw [updateOrderByID_eq, hq]
    simp only [he]
  · intro h
    rw [createNewOrder_eq]
    cases hq : atoi (lineAt s.input 1) with
    | none => simp [requestsOf_append, requestsOf_createPrompts, requestsOf]
    | some q =>
      rcases h with h | ⟨e, he⟩
      · rw [hq] at h
        cases h
      · simp [he, requestsOf_append, requestsOf_createPrompts, requestsOf]
  · intro h
    rw [updateOrderByID_eq]
    cases hq : atoi (lineAt s.input 2) with
    | none => simp [requestsOf_append, requestsOf_updatePrompts, requestsOf]
    | some q =>
      rcases h with h | ⟨e, he⟩
      · rw [hq] at h
        cases h
      · simp [he, requestsOf_append, requestsOf_updatePrompts, requestsOf]

/-- C1 at the quantity "abc": `strconv.Atoi` refuses it, and both handlers
print the quantity message and submit nothing. -/
theorem numeric_error_aborts_witness :
    atoi "abc" = none ∧
    lineAt "P1\nabc\n9.99\n".data 1 = "abc" ∧
    createNewOrder offline baseURL ⟨"P1\nabc\n9.99\n".data, []⟩ =
      ⟨afterLines "P1\nabc\n9.99\n".data 2,
        [] ++ createPrompts ++ [.print "数量必须是数字\n"]⟩ ∧
    requestsOf (createNewOrder offline baseURL ⟨"P1\nabc\n9.99\n".data, []⟩).trace = [] ∧
    requestsOf (updateOrderByID offline baseURL ⟨"42\nP1\nabc\n9.99\npaid\n".data, []⟩).trace = [] :=
  ⟨by decide, by decide,
    (numeric_error_aborts offline baseURL ⟨"P1\nabc\n9.99\n".data, []⟩).1 (by decide),
    (numeric_error_aborts offline baseURL ⟨"P1\nabc\n9.99\n".data, []⟩).2.2.2.2.1
      (Or.inl (by decide)),
    (numeric_error_aborts offline baseURL ⟨"42\nP1\nabc\n9.99\npaid\n".data, []⟩).2.2.2.2.2
      (Or.inl (by decide))⟩

/-- C3. For a response whose body can be read, `displayResponse` prints the
status code, the heading, and then the body: when the body is valid JSON
(`json.Valid`), the text `json.Indent` makes of it with an empty prefix and
an indent of two spaces; when it is not, the body itself, unchanged. It is
defined on every response, leaves the input untouched and submits nothing. -/
theorem displayResponse_renders (code : Int) (body : String) (s : State) :
    (jsonValid body = true →
      ∃ pretty, jsonIndent body "" "  " = some pretty ∧
        displayResponse ⟨code, .ok body⟩ s =
          ⟨s.input, s.trace ++ [.print ("HTTP状态码: " ++ formatInt code ++ "\n"),
            .print "响应内容:\n", .print (pretty ++ "\n")]⟩) ∧
    (jsonValid body = false →
      displayResponse ⟨code, .ok body⟩ s =
        ⟨s.input, s.trace ++ [.print ("HTTP状态码: " ++ formatInt code ++ "\n"),
          .print "响应内容:\n", .print (body ++ "\n")]⟩) ∧
    (∀ resp : Response,
      (displayResponse resp s).input = s.input ∧
      s.trace ++ [.print ("HTTP状态码: " ++ formatInt resp.statusCode ++ "\n")] <+:
        (displayResponse resp s).trace ∧
      requestsOf (displayResponse resp s).trace = requestsOf s.trace) := by
  refine ⟨?_, ?_, ?_⟩
  · intro hv
    have hs := jsonIndent_isSome body "" "  "
    rw [hv] at hs
    obtain ⟨pretty, hp⟩ := Option.isSome_iff_exists.1 hs
    exact ⟨pretty, hp, by simp [displayResponse, hp, State.put, State.println, State.emit]⟩
  · intro hv
    have hs := jsonIndent_isSome body "" "  "
    rw [hv] at hs
    have hn : jsonIndent body "" "  " = none := by
      cases h : jsonIndent body "" "  " with
      | none => rfl
      | some p => rw [h] at hs; simp at hs
    simp [displayResponse, hn, State.put, State.println, State.emit]
  · intro resp
    refine ⟨?_, ?_, requestsOf_displayResponse resp s⟩
    · unfold displayResponse
      simp only
      split
      · rfl
      · split <;> rfl
    · unfold displayResponse
      simp only
      split
      · exact List.prefix_append _ _
      · split <;>
          exact (prefix_println
            (s.put ("HTTP状态码: " ++ formatInt resp.statusCode ++ "\n")) _).trans
            (prefix_println _ _)

/-- C3 on a JSON body and on a body that is not JSON. -/
theorem displayResponse_renders_witness :
    displayResponse ⟨200, .ok "\x7b\"id\":\"42\",\"tags\":[1,2]\x7d"⟩ ⟨[], []⟩ =
      ⟨[], [.print "HTTP状态码: 200\n", .print "响应内容:\n",
        .print "\x7b\n  \"id\": \"42\",\n  \"tags\": [\n    1,\n    2\n  ]\n\x7d\n"]⟩ ∧
    displayResponse ⟨404, .ok "404 page not found\n"⟩ ⟨[], []⟩ =
      ⟨[], [] ++ [.print ("HTTP状态码: " ++ formatInt 404 ++ "\n"), .print "响应内容:\n",
        .print ("404 page not found\n" ++ "\n")]⟩ :=
  ⟨by decide, (displayResponse_renders 404 "404 page not found\n" ⟨[], []⟩).2.1 (by decide)⟩

theorem mainLoop_returns_iff (net : Net) (n : Nat) (s : State) :
    (mainLoop net n s).2 = true ↔ ∃ k, k < n ∧ lineAt (stateAt net s k).input 0 = "8" := by
  constructor
  · exact mainLoop_returns net n s
  · induction n generalizing s with
    | zero =>
      rintro ⟨k, hk, _⟩
      exact absurd hk (Nat.not_lt_zero k)
    | succ m ih =>
      rintro ⟨k, hk, h8⟩
      by_cases hf : (mainIteration net s).2 = true
      · simp [mainLoop, hf]
      · cases k with
        | zero => exact absurd ((mainIteration_flag net s).2 h8) hf
        | succ j =>
          simp only [mainLoop, hf]
          exact ih (mainIteration net s).1 ⟨j, Nat.lt_of_succ_lt_succ hk, h8⟩

theorem prefix_mainIteration (net : Net) (s : State) :
    s.trace <+: (mainIteration net s).1.trace :=
  (List.prefix_append _ _).trans (mainIteration_menu_first net s)

theorem prefix_mainLoop (net : Net) (n : Nat) (s : State) :
    s.trace <+: (mainLoop net n s).1.trace := by
  induction n generalizing s with
  | zero => exact List.prefix_refl _
  | succ m ih =>
    simp only [mainLoop]
    split_ifs
    · exact prefix_mainIteration net s
    · exact (prefix_mainIteration net s).trans (ih _)

theorem mainLoop_menu_first (net : Net) (n : Nat) (s : State) :
    s.trace ++ menuEvents <+: (mainLoop net (n + 1) s).1.trace := by
  simp only [mainLoop]
  split_ifs
  · exact mainIteration_menu_first net s
  · exact (mainIteration_menu_first net s).trans (prefix_mainLoop net n _)

/-- C4. When the trimmed choice line is none of "1" .. "8", the iteration of
the main loop emits the menu, the message "无效的选择，请重试。" and the prompt
for Enter, and nothing else: no banner of a handler and no request. It reads
two lines (the choice and the Enter) and does not return. The loop of `main`
run for one iteration stops in exactly that state, not returned; run for any
larger number of iterations it has gone on from there, and its output then
continues with the menu, printed again right after the prompt for Enter. -/
theorem invalid_choice_redisplays (net : Net) (s : State)
    (h : lineAt s.input 0 ∉ ["1", "2", "3", "4", "5", "6", "7", "8"]) :
    mainIteration net s = (⟨afterLines s.input 2, s.trace ++ idleEvents⟩, false) ∧
    requestsOf (mainIteration net s).1.trace = requestsOf s.trace ∧
    mainLoop net 1 s = (⟨afterLines s.input 2, s.trace ++ idleEvents⟩, false) ∧
    (∀ n, mainLoop net (n + 1) s = mainLoop net n ⟨afterLines s.input 2, s.trace ++ idleEvents⟩) ∧
    (∀ n, s.trace ++ idleEvents ++ menuEvents <+: (mainLoop net (n + 2) s).1.trace) ∧
    s.trace ++ idleEvents ++ menuEvents <+:
      (mainIteration net ⟨afterLines s.input 2, s.trace ++ idleEvents⟩).1.trace := by
  have hstep := mainIteration_invalid net s h
  have hloop : ∀ n, mainLoop net (n + 1) s =
      mainLoop net n ⟨afterLines s.input 2, s.trace ++ idleEvents⟩ := by
    intro n
    simp [mainLoop, hstep]
  refine ⟨hstep, ?_, ?_, hloop, ?_, ?_⟩
  · rw [hstep]
    simp [requestsOf_append, idleEvents, requestsOf_menuEvents, requestsOf]
  · rw [hloop 0]
    rfl
  · intro n
    rw [hloop (n + 1)]
    exact mainLoop_menu_first net n ⟨afterLines s.input 2, s.trace ++ idleEvents⟩
  · exact mainIteration_menu_first net ⟨afterLines s.input 2, s.trace ++ idleEvents⟩

/-- C4 at the choice "9" (and at an empty line): the iteration only prints,
and the loop, given a second iteration, prints the menu again. -/
theorem invalid_choice_redisplays_witness :
    lineAt "9\n\n".data 0 = "9" ∧
    mainIteration offline ⟨"9\n\n".data, []⟩ =
      (⟨afterLines "9\n\n".data 2, [] ++ idleEvents⟩, false) ∧
    requestsOf (mainIteration offline ⟨"\n\n".data, []⟩).1.trace = requestsOf [] ∧
    [] ++ idleEvents ++ menuEvents <+: (mainLoop offline (0 + 2) ⟨"9\n\n8\n".data, []⟩).1.trace ∧
    mainLoop offline 2 ⟨"9\n\n8\n".data, []⟩ =
      (⟨[], idleEvents ++ menuEvents ++ [.print "退出程序...\n"]⟩, true) :=
  ⟨by decide, (invalid_choice_redisplays offline ⟨"9\n\n".data, []⟩ (by decide)).1,
    (invalid_choice_redisplays offline ⟨"\n\n".data, []⟩ (by decide)).2.1,
    (invalid_choice_redisplays offline ⟨"9\n\n8\n".data, []⟩ (by decide)).2.2.2.2.1 0,
    by decide⟩

/-- C6. Writing "choice" for the line the iteration reads and trims, as the
loop does before it dispatches: an iteration of the main loop returns if and
only if the choice is "8". That iteration emits the menu and "退出程序..." and
nothing else (no request, no prompt for Enter), reads the choice line only,
and ends the loop. The loop returns within `n` iterations if and only if one
of its first `n` iterations reads the choice "8". -/
theorem exit_only_by_choice_8 (net : Net) (s : State) :
    ((mainIteration net s).2 = true ↔ lineAt s.input 0 = "8") ∧
    (lineAt s.input 0 = "8" →
      mainIteration net s =
        (⟨afterLines s.input 1, s.trace ++ menuEvents ++ [.print "退出程序...\n"]⟩, true) ∧
      requestsOf (mainIteration net s).1.trace = requestsOf s.trace ∧
      ∀ n, mainLoop net (n + 1) s = mainIteration net s) ∧
    (∀ n, (mainLoop net n s).2 = true ↔
      ∃ k, k < n ∧ lineAt (stateAt net s k).input 0 = "8") := by
  refine ⟨mainIteration_flag net s, ?_, fun n => mainLoop_returns_iff net n s⟩
  intro h
  have hstep := mainIteration_exit net s h
  refine ⟨hstep, ?_, ?_⟩
  · rw [hstep]
    simp [requestsOf_append, requestsOf_menuEvents, requestsOf]
  · intro n
    simp [mainLoop, hstep]

/-- C6 on the inputs "8" and "1": the first returns at once, the second does not. -/
theorem exit_only_by_choice_8_witness :
    mainIteration offline ⟨"8\n".data, []⟩ =
      (⟨afterLines "8\n".data 1, [] ++ menuEvents ++ [.print "退出程序...\n"]⟩, true) ∧
    (mainIteration offline ⟨"1\n\n".data, []⟩).2 = false ∧
    (mainLoop offline 5 ⟨"1\n\n4\n\n8\n".data, []⟩).2 = true :=
  ⟨((exit_only_by_choice_8 offline ⟨"8\n".data, []⟩).2.1 (by decide)).1, by decide, by decide⟩

/-- C9, amended. The end of the input is not fatal. On an exhausted input
every read yields the empty line, the end-of-input error being discarded; the
main loop takes it for an unknown choice, so that each iteration prints the
menu, the rejection and the prompt for Enter, and the loop never returns.
The loop returns only by the choice "8". -/
theorem exhausted_input_keeps_looping (net : Net) (n : Nat) (s : State) (h : s.input = []) :
    mainLoop net n s = (⟨[], s.trace ++ (List.replicate n idleEvents).flatten⟩, false) ∧
    (∀ (m : Nat) (s0 : State), (mainLoop net m s0).2 = true →
      ∃ k, k < m ∧ lineAt (stateAt net s0 k).input 0 = "8") := by
  refine ⟨?_, fun m s0 => mainLoop_returns net m s0⟩
  cases s with
  | mk i t =>
    simp only at h
    subst h
    exact mainLoop_exhausted net n t

/-- C9, amended, on the empty input: after three iterations the loop is still
running and has printed the menu three times. -/
theorem exhausted_input_keeps_looping_witness :
    mainLoop offline 3 ⟨[], []⟩ =
      (⟨[], [] ++ (List.replicate 3 idleEvents).flatten⟩, false) :=
  (exhausted_input_keeps_looping offline 3 ⟨[], []⟩ rfl).1

/-- C9 as stated fails: on the exhausted input the main loop has not returned
after any number of iterations, and the same holds once the input "1" and its
Enter have been consumed. -/
theorem exhausted_input_never_exits :
    (¬ ∃ n, (mainLoop offline n ⟨[], []⟩).2 = true) ∧
    (mainIteration offline ⟨"1\n".data, []⟩).1.input = [] ∧
    (¬ ∃ n, (mainLoop offline n (mainIteration offline ⟨"1\n".data, []⟩).1).2 = true) := by
  have key : ∀ t : List Event, ¬ ∃ n, (mainLoop offline n ⟨[], t⟩).2 = true := by
    rintro t ⟨n, hn⟩
    rw [mainLoop_exhausted] at hn
    cases hn
  refine ⟨key [], by decide, ?_⟩
  have hi : (mainIteration offline ⟨"1\n".data, []⟩).1 =
      ⟨[], (mainIteration offline ⟨"1\n".data, []⟩).1.trace⟩ := by decide
  rw [hi]
  exact key _

theorem requestsOf_createNewOrder (net : Net) (base : String) (s : State) (q : Int) (f : Float64)
    (t : String) (hq : atoi (lineAt s.input 1) = some q)
    (hf : parseFloat (lineAt s.input 2) = .ok f) (ht : encodeFloat f = .ok t) :
    requestsOf (createNewOrder net base s).trace =
      requestsOf s.trace ++
        [⟨"POST", base ++ "/api/orders", some "application/json",
          some (orderJSON (lineAt s.input 0) q t "")⟩] := by
  rw [createNewOrder_eq, hq]
  simp only [hf]
  rw [requestsOf_sendPostRequest, marshal_ok _ _ _ _ _ ht]
  simp [requestsOf_append, requestsOf_createPrompts, requestsOf]

theorem requestsOf_updateOrderByID (net : Net) (base : String) (s : State) (q : Int)
    (f : Float64) (t : String) (hq : atoi (lineAt s.input 2) = some q)
    (hf : parseFloat (lineAt s.input 3) = .ok f) (ht : encodeFloat f = .ok t) :
    requestsOf (updateOrderByID net base s).trace =
      requestsOf s.trace ++
        (match net.newRequest "PUT" (base ++ "/api/orders/" ++ lineAt s.input 0) with
         | none =>
           [⟨"PUT", base ++ "/api/orders/" ++ lineAt s.input 0, some "application/json",
             some (orderJSON (lineAt s.input 1) q t (lineAt s.input 4))⟩]
         | some _ => []) := by
  rw [updateOrderByID_eq, hq]
  simp only [hf]
  rw [requestsOf_sendPutRequest, marshal_ok _ _ _ _ _ ht]
  cases net.newRequest "PUT" (base ++ "/api/orders/" ++ lineAt s.input 0) <;>
    simp [requestsOf_append, requestsOf_updatePrompts, requestsOf]

theorem createNewOrder_not_finite (net : Net) (base : String) (s : State) (q : Int)
    (f : Float64) (hq : atoi (lineAt s.input 1) = some q)
    (hf : parseFloat (lineAt s.input 2) = .ok f) (hfin : f.isFinite = false) :
    createNewOrder net base s =
      ⟨afterLines s.input 3, s.trace ++ createPrompts ++ [.print "请输入金额: ",
        .print ("JSON序列化失败: " ++ ("json: unsupported value: " ++ formatSpecial f) ++ "\n")]⟩ := by
  rw [createNewOrder_eq, hq]
  simp only [hf]
  unfold sendPostRequest
  rw [marshal_error _ hfin]
  simp [State.put, State.emit]

theorem updateOrderByID_not_finite (net : Net) (base : String) (s : State) (q : Int)
    (f : Float64) (hq : atoi (lineAt s.input 2) = some q)
    (hf : parseFloat (lineAt s.input 3) = .ok f) (hfin : f.isFinite = false) :
    updateOrderByID net base s =
      ⟨afterLines s.input 5, s.trace ++ updatePrompts ++ [.print "请输入金额: ",
        .print "请输入订单状态: ",
        .print ("JSON序列化失败: " ++ ("json: unsupported value: " ++ formatSpecial f) ++ "\n")]⟩ := by
  rw [updateOrderByID_eq, hq]
  simp only [hf]
  unfold sendPutRequest
  rw [marshal_error _ hfin]
  simp [State.put, State.emit]

/-- C2, amended. For every product line, every quantity line that
`strconv.Atoi` accepts and every amount line that `strconv.ParseFloat`
accepts with a finite value, `createNewOrder` submits exactly one request: a
POST to base + "/api/orders" whose body is the object with exactly the
members `product_id`, `quantity`, `amount`, in this order, holding the
trimmed product line as a JSON string, the quantity and the amount as JSON
numbers; there is no `id` and no `status` member. -/
theorem create_body (net : Net) (base : String) (s : State) (q : Int) (f : Float64)
    (hq : atoi (lineAt s.input 1) = some q) (hf : parseFloat (lineAt s.input 2) = .ok f)
    (hfin : f.isFinite = true) :
    ∃ t, encodeFloat f = .ok t ∧
      marshal ⟨"", lineAt s.input 0, q, f, ""⟩ =
        .ok ("\x7b\"product_id\":" ++ encodeString (lineAt s.input 0) ++ ",\"quantity\":" ++
          formatInt q ++ ",\"amount\":" ++ t ++ "\x7d") ∧
      Order.members ⟨"", lineAt s.input 0, q, f, ""⟩ =
        [("product_id", .str (lineAt s.input 0)), ("quantity", .int q), ("amount", .float f)] ∧
      requestsOf (createNewOrder net base s).trace =
        requestsOf s.trace ++
          [⟨"POST", base ++ "/api/orders", some "application/json",
            some ("\x7b\"product_id\":" ++ encodeString (lineAt s.input 0) ++ ",\"quantity\":" ++
              formatInt q ++ ",\"amount\":" ++ t ++ "\x7d")⟩] := by
  obtain ⟨t, ht⟩ := (encodeFloat_isFinite f).2 hfin
  have hj : orderJSON (lineAt s.input 0) q t "" =
      "\x7b\"product_id\":" ++ encodeString (lineAt s.input 0) ++ ",\"quantity\":" ++
        formatInt q ++ ",\"amount\":" ++ t ++ "\x7d" := by
    apply String.ext
    simp [orderJSON, String.data_append]
  refine ⟨t, ht, ?_, ?_, ?_⟩
  · rw [marshal_ok _ _ _ _ _ ht, hj]
  · simp [Order.members]
  · rw [requestsOf_createNewOrder net base s q f t hq hf ht, hj]

/-- C2, amended, at product "P1", quantity "2", amount "9.99": one POST to
`/api/orders` with the body `{"product_id":"P1","quantity":2,"amount":9.99}`. -/
theorem create_body_witness :
    atoi "2" = some 2 ∧
    parseFloat "9.99" = .ok (.finite false 5623870034678907 (-49)) ∧
    (∃ t, encodeFloat (.finite false 5623870034678907 (-49)) = .ok t ∧
      marshal ⟨"", lineAt "P1\n2\n9.99\n".data 0, 2, .finite false 5623870034678907 (-49), ""⟩ =
        .ok ("\x7b\"product_id\":" ++ encodeString (lineAt "P1\n2\n9.99\n".data 0) ++
          ",\"quantity\":" ++ formatInt 2 ++ ",\"amount\":" ++ t ++ "\x7d") ∧
      Order.members
          ⟨"", lineAt "P1\n2\n9.99\n".data 0, 2, .finite false 5623870034678907 (-49), ""⟩ =
        [("product_id", .str (lineAt "P1\n2\n9.99\n".data 0)), ("quantity", .int 2),
          ("amount", .float (.finite false 5623870034678907 (-49)))] ∧
      requestsOf (createNewOrder offline baseURL ⟨"P1\n2\n9.99\n".data, []⟩).trace =
        requestsOf [] ++
          [⟨"POST", baseURL ++ "/api/orders", some "application/json",
            some ("\x7b\"product_id\":" ++ encodeString (lineAt "P1\n2\n9.99\n".data 0) ++
              ",\"quantity\":" ++ formatInt 2 ++ ",\"amount\":" ++ t ++ "\x7d")⟩]) ∧
    requestsOf (createNewOrder offline baseURL ⟨"P1\n2\n9.99\n".data, []⟩).trace =
      [⟨"POST", "http://localhost:8080/api/orders", some "application/json",
        some "\x7b\"product_id\":\"P1\",\"quantity\":2,\"amount\":9.99\x7d"⟩] :=
  ⟨by decide, by decide,
    create_body offline baseURL ⟨"P1\n2\n9.99\n".data, []⟩ 2
      (.finite false 5623870034678907 (-49)) (by decide) (by decide) rfl,
    by decide⟩

/-- C2 as stated fails: the amount "NaN" is accepted by `createNewOrder`
(`strconv.ParseFloat` returns NaN without error), `json.Marshal` then fails,
so that no JSON body exists; the handler prints the serialization failure
and submits nothing. -/
theorem create_nan_has_no_body :
    atoi "2" = some 2 ∧
    parseFloat "NaN" = .ok .nan ∧
    (¬ ∃ body, marshal ⟨"", "P1", 2, .nan, ""⟩ = .ok body) ∧
    createNewOrder offline baseURL ⟨"P1\n2\nNaN\n".data, []⟩ =
      ⟨[], createPrompts ++ [.print "请输入金额: ",
        .print "JSON序列化失败: json: unsupported value: NaN\n"]⟩ ∧
    requestsOf (createNewOrder offline baseURL ⟨"P1\n2\nNaN\n".data, []⟩).trace = [] := by
  refine ⟨by decide, by decide, ?_, by decide, by decide⟩
  rintro ⟨body, hb⟩
  have h : marshal ⟨"", "P1", 2, .nan, ""⟩ = .error "json: unsupported value: NaN" := by decide
  rw [h] at hb
  cases hb

theorem requestsOf_iteration_get (net : Net) (st : State) (url : String) :
    requestsOf (pressEnter (sendGetRequest net url st)).trace =
      requestsOf st.trace ++
        (match net.newRequest "GET" url with
         | none => [⟨"GET", url, none, none⟩]
         | some _ => []) := by
  rw [requestsOf_pressEnter, requestsOf_sendGetRequest]

/-- C5, amended. One iteration of the main loop hands the HTTP client at most
one request, with the verb and URL of the dispatch table, and exactly one
whenever `http.NewRequest` builds the request from the URL: "1", "2", "4": a
GET to base + "/health", "/ready", "/api/orders", three URLs the library
accepts; "5": a GET to base + "/api/orders/" + id; "7": a DELETE with no
body to base + "/api/orders/" + id; "3": a POST to base + "/api/orders" when
the quantity is an integer and the amount a finite number; "6": a PUT to
base + "/api/orders/" + id under the same condition. When `http.NewRequest`
refuses the URL, choices "5", "6" and "7" hand over no request. Here id is
the trimmed id line, and a request is one call of the client. -/
theorem dispatch_table (net : Net) (s : State) :
    (lineAt s.input 0 = "1" → net.newRequest "GET" (baseURL ++ "/health") = none →
      requestsOf (mainIteration net s).1.trace =
        requestsOf s.trace ++ [⟨"GET", baseURL ++ "/health", none, none⟩]) ∧
    (lineAt s.input 0 = "2" → net.newRequest "GET" (baseURL ++ "/ready") = none →
      requestsOf (mainIteration net s).1.trace =
        requestsOf s.trace ++ [⟨"GET", baseURL ++ "/ready", none, none⟩]) ∧
    (lineAt s.input 0 = "4" → net.newRequest "GET" (baseURL ++ "/api/orders") = none →
      requestsOf (mainIteration net s).1.trace =
        requestsOf s.trace ++ [⟨"GET", baseURL ++ "/api/orders", none, none⟩]) ∧
    (requestURLError (baseURL ++ "/health") = none ∧
      requestURLError (baseURL ++ "/ready") = none ∧
      requestURLError (baseURL ++ "/api/orders") = none) ∧
    (lineAt s.input 0 = "5" →
      (net.newRequest "GET" (baseURL ++ "/api/orders/" ++ lineAt s.input 1) = none →
        requestsOf (mainIteration net s).1.trace =
          requestsOf s.trace ++
            [⟨"GET", baseURL ++ "/api/orders/" ++ lineAt s.input 1, none, none⟩]) ∧
      ((∃ e, net.newRequest "GET" (baseURL ++ "/api/orders/" ++ lineAt s.input 1) = some e) →
        requestsOf (mainIteration net s).1.trace = requestsOf s.trace)) ∧
    (lineAt s.input 0 = "7" →
      (net.newRequest "DELETE" (baseURL ++ "/api/orders/" ++ lineAt s.input 1) = none →
        requestsOf (mainIteration net s).1.trace =
          requestsOf s.trace ++
            [⟨"DELETE", baseURL ++ "/api/orders/" ++ lineAt s.input 1, none, none⟩]) ∧
      ((∃ e, net.newRequest "DELETE" (baseURL ++ "/api/orders/" ++ lineAt s.input 1) = some e) →
        requestsOf (mainIteration net s).1.trace = requestsOf s.trace)) ∧
    (lineAt s.input 0 = "3" →
      ∀ q f, atoi (lineAt s.input 2) = some q → parseFloat (lineAt s.input 3) = .ok f →
        f.isFinite = true →
        ∃ t, encodeFloat f = .ok t ∧
          requestsOf (mainIteration net s).1.trace =
            requestsOf s.trace ++
              [⟨"POST", baseURL ++ "/api/orders", some "application/json",
                some (orderJSON (lineAt s.input 1) q t "")⟩]) ∧
    (lineAt s.input 0 = "6" →
      ∀ q f, atoi (lineAt s.input 3) = some q → parseFloat (lineAt s.input 4) = .ok f →
        f.isFinite = true →
        (net.newRequest "PUT" (baseURL ++ "/api/orders/" ++ lineAt s.input 1) = none →
          ∃ t, encodeFloat f = .ok t ∧
            requestsOf (mainIteration net s).1.trace =
              requestsOf s.trace ++
                [⟨"PUT", baseURL ++ "/api/orders/" ++ lineAt s.input 1, some "application/json",
                  some (orderJSON (lineAt s.input 2) q t (lineAt s.input 5))⟩]) ∧
        ((∃ e, net.newRequest "PUT" (baseURL ++ "/api/orders/" ++ lineAt s.input 1) = some e) →
          requestsOf (mainIteration net s).1.trace = requestsOf s.trace)) := by
  refine ⟨?_, ?_, ?_, by decide, ?_, ?_, ?_, ?_⟩
  · intro h hn
    rw [mainIteration_eq]
    simp only [h, if_true, String.reduceEq, if_false, checkHealth]
    rw [requestsOf_iteration_get, hn]
    simp [requestsOf_println, requestsOf_append, requestsOf_menuEvents]
  · intro h hn
    rw [mainIteration_eq]
    simp only [h, if_true, String.reduceEq, if_false, checkReady]
    rw [requestsOf_iteration_get, hn]
    simp [requestsOf_println, requestsOf_append, requestsOf_menuEvents]
  · intro h hn
    rw [mainIteration_eq]
    simp only [h, if_true, String.reduceEq, if_false, listAllOrders]
    rw [requestsOf_iteration_get, hn]
    simp [requestsOf_println, requestsOf_append, requestsOf_menuEvents]
  · intro h
    have hd : requestsOf (mainIteration net s).1.trace =
        requestsOf s.trace ++
          (match net.newRequest "GET" (baseURL ++ "/api/orders/" ++ lineAt s.input 1) with
           | none => [⟨"GET", baseURL ++ "/api/orders/" ++ lineAt s.input 1, none, none⟩]
           | some _ => []) := by
      rw [mainIteration_eq]
      simp only [h, if_true, String.reduceEq, if_false]
      simp [requestsOf_pressEnter, getOrderByID_eq, requestsOf_sendGetRequest,
        requestsOf_append, requestsOf_menuEvents, requestsOf, lineAt, afterLines]
    constructor
    · intro hn
      rw [hd, hn]
    · rintro ⟨e, he⟩
      rw [hd, he]
      simp
  · intro h
    have hd : requestsOf (mainIteration net s).1.trace =
        requestsOf s.trace ++
          (match net.newRequest "DELETE" (baseURL ++ "/api/orders/" ++ lineAt s.input 1) with
           | none => [⟨"DELETE", baseURL ++ "/api/orders/" ++ lineAt s.input 1, none, none⟩]
           | some _ => []) := by
      rw [mainIteration_eq]
      simp only [h, if_true, String.reduceEq, if_false]
      simp [requestsOf_pressEnter, deleteOrderByID_eq, requestsOf_sendDeleteRequest,
        requestsOf_append, requestsOf_menuEvents, requestsOf, lineAt, afterLines]
    constructor
    · intro hn
      rw [hd, hn]
    · rintro ⟨e, he⟩
      rw [hd, he]
      simp
  · intro h q f hq hf hfin
    obtain ⟨t, ht⟩ := (encodeFloat_isFinite f).2 hfin
    refine ⟨t, ht, ?_⟩
    rw [mainIteration_eq]
    simp only [h, if_true, String.reduceEq, if_false]
    rw [requestsOf_pressEnter,
      requestsOf_createNewOrder net baseURL ⟨afterLines s.input 1, s.trace ++ menuEvents⟩ q f t
        hq hf ht]
    simp [requestsOf_append, requestsOf_menuEvents, lineAt, afterLines]
  · intro h q f hq hf hfin
    obtain ⟨t, ht⟩ := (encodeFloat_isFinite f).2 hfin
    have hd : requestsOf (mainIteration net s).1.trace =
        requestsOf s.trace ++
          (match net.newRequest "PUT" (baseURL ++ "/api/orders/" ++ lineAt s.input 1) with
           | none =>
             [⟨"PUT", baseURL ++ "/api/orders/" ++ lineAt s.input 1, some "application/json",
               some (orderJSON (lineAt s.input 2) q t (lineAt s.input 5))⟩]
           | some _ => []) := by
      rw [mainIteration_eq]
      simp only [h, if_true, String.reduceEq, if_false]
      rw [requestsOf_pressEnter,
        requestsOf_updateOrderByID net baseURL ⟨afterLines s.input 1, s.trace ++ menuEvents⟩ q f
          t hq hf ht]
      simp [requestsOf_append, requestsOf_menuEvents, lineAt, afterLines]
    constructor
    · intro hn
      exact ⟨t, ht, by rw [hd, hn]⟩
    · rintro ⟨e, he⟩
      rw [hd, he]
      simp

/-- C5, amended, at the id "42": choice "5" hands over exactly one GET and
choice "7" exactly one DELETE, built from `/api/orders/42`; choice "1" one
GET built from `/health`. -/
theorem dispatch_table_witness :
    requestsOf (mainIteration answering ⟨"5\n42\n\n".data, []⟩).1.trace =
      requestsOf [] ++
        [⟨"GET", baseURL ++ "/api/orders/" ++ lineAt "5\n42\n\n".data 1, none, none⟩] ∧
    baseURL ++ "/api/orders/" ++ lineAt "5\n42\n\n".data 1 =
      "http://localhost:8080/api/orders/42" ∧
    requestsOf (mainIteration answering ⟨"7\n42\n\n".data, []⟩).1.trace =
      requestsOf [] ++
        [⟨"DELETE", baseURL ++ "/api/orders/" ++ lineAt "7\n42\n\n".data 1, none, none⟩] ∧
    requestsOf (mainIteration answering ⟨"7\n42\n\n".data, []⟩).1.trace =
      [⟨"DELETE", "http://localhost:8080/api/orders/42", none, none⟩] ∧
    requestsOf (mainIteration offline ⟨"1\n\n".data, []⟩).1.trace =
      requestsOf [] ++ [⟨"GET", baseURL ++ "/health", none, none⟩] :=
  ⟨((dispatch_table answering ⟨"5\n42\n\n".data, []⟩).2.2.2.2.1 (by decide)).1 (by decide),
    by decide,
    ((dispatch_table answering ⟨"7\n42\n\n".data, []⟩).2.2.2.2.2.1 (by decide)).1 (by decide),
    by decide,
    (dispatch_table offline ⟨"1\n\n".data, []⟩).1 (by decide) (by decide)⟩

/-- C5 as stated fails: with the id "%" the URL has a malformed escape and
`http.NewRequest` refuses it. Choice "7" then prints
`创建请求失败: parse "http://localhost:8080/api/orders/%": invalid URL escape "%"`
and hands over no request; nor do choice "6" and choice "5", whose
`http.Get` fails on the same URL before anything is sent. -/
theorem bad_id_sends_nothing :
    lineAt "7\n%\n\n".data 0 = "7" ∧ lineAt "7\n%\n\n".data 1 = "%" ∧
    requestURLError "http://localhost:8080/api/orders/%" =
      some "parse \"http://localhost:8080/api/orders/%\": invalid URL escape \"%\"" ∧
    requestsOf (mainIteration offline ⟨"7\n%\n\n".data, []⟩).1.trace = [] ∧
    printedBy ((mainIteration offline ⟨"7\n%\n\n".data, []⟩).1.trace.drop 10) =
      ["=== 删除订单 ===\n", "请输入订单ID: ",
        "创建请求失败: parse \"http://localhost:8080/api/orders/%\": invalid URL escape \"%\"\n",
        "\n按Enter键继续...\n"] ∧
    requestsOf (mainIteration offline ⟨"6\n%\nP1\n2\n9.99\npaid\n\n".data, []⟩).1.trace = [] ∧
    requestsOf (mainIteration offline ⟨"5\n%\n\n".data, []⟩).1.trace = [] ∧
    printedBy ((mainIteration offline ⟨"5\n%\n\n".data, []⟩).1.trace.drop 10) =
      ["=== 根据ID获取订单 ===\n", "请输入订单ID: ",
        "请求失败: parse \"http://localhost:8080/api/orders/%\": invalid URL escape \"%\"\n",
        "\n按Enter键继续...\n"] := by
  decide

/-- C7, amended. In `getOrderByID`, `updateOrderByID` and `deleteOrderByID`
the id is the id line with leading and trailing white space removed
(`strings.TrimSpace`) and otherwise unchanged, and the URL text the handler
hands to its verb helper is baseURL + "/api/orders/" + id, the id spliced in
by the program without escaping or other change. Every request these
handlers hand to the client was built from that text. (The library parses
the text and escapes it for the request line; that is not the program's
doing and is not modelled.) -/
theorem id_is_trimmed_line (net : Net) (base : String) (s : State) :
    getOrderByID net base s =
      sendGetRequest net (base ++ "/api/orders/" ++ trimSpace ⟨(readString s.input).1⟩)
        ⟨(readString s.input).2,
          s.trace ++ [.print "=== 根据ID获取订单 ===\n", .print "请输入订单ID: "]⟩ ∧
    deleteOrderByID net base s =
      sendDeleteRequest net (base ++ "/api/orders/" ++ trimSpace ⟨(readString s.input).1⟩)
        ⟨(readString s.input).2,
          s.trace ++ [.print "=== 删除订单 ===\n", .print "请输入订单ID: "]⟩ ∧
    (∀ q f, atoi (lineAt s.input 2) = some q → parseFloat (lineAt s.input 3) = .ok f →
      updateOrderByID net base s =
        sendPutRequest net (base ++ "/api/orders/" ++ trimSpace ⟨(readString s.input).1⟩)
          ⟨"", lineAt s.input 1, q, f, lineAt s.input 4⟩
          ⟨afterLines s.input 5,
            s.trace ++ updatePrompts ++ [.print "请输入金额: ", .print "请输入订单状态: "]⟩) ∧
    (∀ r ∈ requestsOf (getOrderByID net base s).trace,
      r ∈ requestsOf s.trace ∨
        r = ⟨"GET", base ++ "/api/orders/" ++ trimSpace ⟨(readString s.input).1⟩, none, none⟩) ∧
    (∀ r ∈ requestsOf (deleteOrderByID net base s).trace,
      r ∈ requestsOf s.trace ∨
        r = ⟨"DELETE", base ++ "/api/orders/" ++ trimSpace ⟨(readString s.input).1⟩,
          none, none⟩) ∧
    (∀ r ∈ requestsOf (updateOrderByID net base s).trace,
      r ∈ requestsOf s.trace ∨
        (r.method = "PUT" ∧
          r.rawURL = base ++ "/api/orders/" ++ trimSpace ⟨(readString s.input).1⟩)) := by
  have hid : trimSpace ⟨(readString s.input).1⟩ = lineAt s.input 0 := rfl
  have hrest : (readString s.input).2 = afterLines s.input 1 := rfl
  rw [hid, hrest]
  refine ⟨getOrderByID_eq net base s, deleteOrderByID_eq net base s, ?_, ?_, ?_, ?_⟩
  · intro q f hq hf
    rw [updateOrderByID_eq, hq]
    simp only [hf]
  · intro r hr
    rw [getOrderByID_eq, requestsOf_sendGetRequest] at hr
    cases hn : net.newRequest "GET" (base ++ "/api/orders/" ++ lineAt s.input 0) with
    | none =>
      rw [hn] at hr
      simpa [requestsOf_append, requestsOf] using hr
    | some e =>
      rw [hn] at hr
      left
      simpa [requestsOf_append, requestsOf] using hr
  · intro r hr
    rw [deleteOrderByID_eq, requestsOf_sendDeleteRequest] at hr
    cases hn : net.newRequest "DELETE" (base ++ "/api/orders/" ++ lineAt s.input 0) with
    | none =>
      rw [hn] at hr
      simpa [requestsOf_append, requestsOf] using hr
    | some e =>
      rw [hn] at hr
      left
      simpa [requestsOf_append, requestsOf] using hr
  · intro r hr
    rw [updateOrderByID_eq] at hr
    cases hq : atoi (lineAt s.input 2) with
    | none =>
      rw [hq] at hr
      left
      simpa [requestsOf_append, requestsOf_updatePrompts, requestsOf] using hr
    | some q =>
      rw [hq] at hr
      cases hf : parseFloat (lineAt s.input 3) with
      | error e =>
        simp only [hf] at hr
        left
        simpa [requestsOf_append, requestsOf_updatePrompts, requestsOf] using hr
      | ok f =>
        simp only [hf] at hr
        rw [requestsOf_sendPutRequest] at hr
        cases hm : marshal ⟨"", lineAt s.input 1, q, f, lineAt s.input 4⟩ with
        | error e =>
          rw [hm] at hr
          left
          simpa [requestsOf_append, requestsOf_updatePrompts, requestsOf] using hr
        | ok t =>
          rw [hm] at hr
          cases hn : net.newRequest "PUT" (base ++ "/api/orders/" ++ lineAt s.input 0) with
          | none =>
            rw [hn] at hr
            simp only [requestsOf_append, requestsOf_updatePrompts, requestsOf,
              List.append_nil, List.mem_append, List.mem_singleton] at hr
            rcases hr with hr | hr
            · exact Or.inl hr
            · right
              rw [hr]
              exact ⟨rfl, rfl⟩
          | some e =>
            rw [hn] at hr
            left
            simpa [requestsOf_append, requestsOf_updatePrompts, requestsOf] using hr

/-- C7, amended, at the id line "  a/b-7 " followed by a tab: the id is "a/b-7"
and the URL text handed to `sendGetRequest` is ".../api/orders/a/b-7". -/
theorem id_is_trimmed_line_witness :
    trimSpace ⟨(readString "  a/b-7 \t\n".data).1⟩ = "a/b-7" ∧
    getOrderByID answering baseURL ⟨"  a/b-7 \t\n".data, []⟩ =
      sendGetRequest answering
        (baseURL ++ "/api/orders/" ++ trimSpace ⟨(readString "  a/b-7 \t\n".data).1⟩)
        ⟨(readString "  a/b-7 \t\n".data).2,
          [] ++ [.print "=== 根据ID获取订单 ===\n", .print "请输入订单ID: "]⟩ ∧
    baseURL ++ "/api/orders/" ++ trimSpace ⟨(readString "  a/b-7 \t\n".data).1⟩ =
      "http://localhost:8080/api/orders/a/b-7" ∧
    requestsOf (getOrderByID answering baseURL ⟨"  a/b-7 \t\n".data, []⟩).trace =
      [⟨"GET", "http://localhost:8080/api/orders/a/b-7", none, none⟩] :=
  ⟨by decide, (id_is_trimmed_line answering baseURL ⟨"  a/b-7 \t\n".data, []⟩).1, by decide,
    by decide⟩

/-- C7 as stated fails: the id line " 42 " is not taken verbatim. The line read
is " 42 " and the URL text handed to `net/http` is ".../api/orders/42", which
is not baseURL + "/api/orders/" + " 42 ". -/
theorem id_not_verbatim :
    (readString " 42 \n".data).1 = " 42 \n".data ∧
    getOrderByID offline baseURL ⟨" 42 \n".data, []⟩ =
      sendGetRequest offline "http://localhost:8080/api/orders/42"
        ⟨[], [.print "=== 根据ID获取订单 ===\n", .print "请输入订单ID: "]⟩ ∧
    requestsOf (getOrderByID offline baseURL ⟨" 42 \n".data, []⟩).trace =
      [⟨"GET", "http://localhost:8080/api/orders/42", none, none⟩] ∧
    requestsOf (deleteOrderByID offline baseURL ⟨" 42 \n".data, []⟩).trace =
      [⟨"DELETE", "http://localhost:8080/api/orders/42", none, none⟩] ∧
    "http://localhost:8080/api/orders/42" ≠ baseURL ++ "/api/orders/" ++ " 42 " := by
  decide

/-- C8, amended. `json.Marshal` of an `Order` succeeds exactly when its amount
is finite. The float parse accepts "NaN", "Inf" and "Infinity" (signed or not
for the infinities), whose values are not finite: for an amount the parse
accepted and that is not finite, `createNewOrder` and `updateOrderByID` reach
the serialization-failure branch, print "JSON序列化失败: ..." and submit
nothing; for a finite one `createNewOrder` submits its POST, and
`updateOrderByID` its PUT unless `http.NewRequest` refuses the URL. -/
theorem serialization_iff_finite :
    (∀ o : Order, (∃ t, marshal o = .ok t) ↔ o.Amount.isFinite = true) ∧
    (∀ (net : Net) (base : String) (s : State) (q : Int) (f : Float64),
      atoi (lineAt s.input 1) = some q → parseFloat (lineAt s.input 2) = .ok f →
      (f.isFinite = true →
        ∃ t, requestsOf (createNewOrder net base s).trace =
          requestsOf s.trace ++
            [⟨"POST", base ++ "/api/orders", some "application/json", some t⟩]) ∧
      (f.isFinite = false →
        createNewOrder net base s =
          ⟨afterLines s.input 3, s.trace ++ createPrompts ++ [.print "请输入金额: ",
            .print ("JSON序列化失败: " ++ ("json: unsupported value: " ++ formatSpecial f) ++
              "\n")]⟩)) ∧
    (∀ (net : Net) (base : String) (s : State) (q : Int) (f : Float64),
      atoi (lineAt s.input 2) = some q → parseFloat (lineAt s.input 3) = .ok f →
      (f.isFinite = true →
        net.newRequest "PUT" (base ++ "/api/orders/" ++ lineAt s.input 0) = none →
        ∃ t, requestsOf (updateOrderByID net base s).trace =
          requestsOf s.trace ++
            [⟨"PUT", base ++ "/api/orders/" ++ lineAt s.input 0, some "application/json",
              some t⟩]) ∧
      (f.isFinite = false →
        updateOrderByID net base s =
          ⟨afterLines s.input 5, s.trace ++ updatePrompts ++ [.print "请输入金额: ",
            .print "请输入订单状态: ",
            .print ("JSON序列化失败: " ++ ("json: unsupported value: " ++ formatSpecial f) ++
              "\n")]⟩)) ∧
    parseFloat "NaN" = .ok .nan ∧ parseFloat "Inf" = .ok (.inf false) ∧
    parseFloat "-Infinity" = .ok (.inf true) := by
  refine ⟨marshal_isFinite, ?_, ?_, by decide, by decide, by decide⟩
  · intro net base s q f hq hf
    constructor
    · intro hfin
      obtain ⟨t, ht⟩ := (encodeFloat_isFinite f).2 hfin
      exact ⟨_, requestsOf_createNewOrder net base s q f t hq hf ht⟩
    · exact createNewOrder_not_finite net base s q f hq hf
  · intro net base s q f hq hf
    constructor
    · intro hfin hn
      obtain ⟨t, ht⟩ := (encodeFloat_isFinite f).2 hfin
      refine ⟨orderJSON (lineAt s.input 1) q t (lineAt s.input 4), ?_⟩
      rw [requestsOf_updateOrderByID net base s q f t hq hf ht, hn]
    · exact updateOrderByID_not_finite net base s q f hq hf

/-- C8, amended, on two orders: the one with amount 9.99 serializes, the one
with amount NaN does not. -/
theorem serialization_iff_finite_witness :
    (∃ t, marshal ⟨"", "P1", 2, .finite false 5623870034678907 (-49), ""⟩ = .ok t) ∧
    ¬ (∃ t, marshal ⟨"7", "P1", 2, .nan, "paid"⟩ = .ok t) :=
  ⟨(serialization_iff_finite.1 ⟨"", "P1", 2, .finite false 5623870034678907 (-49), ""⟩).2 rfl,
    fun h => Bool.noConfusion ((serialization_iff_finite.1 ⟨"7", "P1", 2, .nan, "paid"⟩).1 h)⟩

/-- C8 as stated fails: the amount "Inf" passes the float parse, then
`json.Marshal` fails in `sendPostRequest`: the serialization-failure branch is
reached, its message is printed and no request is sent. -/
theorem accepted_amount_fails_to_serialize :
    atoi "2" = some 2 ∧
    parseFloat "Inf" = .ok (.inf false) ∧
    marshal ⟨"", "P1", 2, .inf false, ""⟩ = .error "json: unsupported value: +Inf" ∧
    createNewOrder offline baseURL ⟨"P1\n2\nInf\n".data, []⟩ =
      ⟨[], createPrompts ++ [.print "请输入金额: ",
        .print "JSON序列化失败: json: unsupported value: +Inf\n"]⟩ ∧
    requestsOf (createNewOrder offline baseURL ⟨"P1\n2\nInf\n".data, []⟩).trace = [] := by
  decide

/-- C10, amended. For every id, product, quantity accepted by `strconv.Atoi`,
amount accepted by `strconv.ParseFloat` with a finite value, and status
entered in `updateOrderByID`, the JSON body is the object with the members
`product_id`, `quantity`, `amount` holding the entered values, followed by
`status` if and only if the trimmed status line is not empty; it has no `id`
member, the entered id appearing in the URL only. The PUT carrying it is
submitted unless `http.NewRequest` refuses the URL. -/
theorem update_body (net : Net) (base : String) (s : State) (q : Int) (f : Float64)
    (hq : atoi (lineAt s.input 2) = some q) (hf : parseFloat (lineAt s.input 3) = .ok f)
    (hfin : f.isFinite = true) :
    ∃ t, encodeFloat f = .ok t ∧
      marshal ⟨"", lineAt s.input 1, q, f, lineAt s.input 4⟩ =
        .ok ("\x7b\"product_id\":" ++ encodeString (lineAt s.input 1) ++ ",\"quantity\":" ++
          formatInt q ++ ",\"amount\":" ++ t ++
          (if lineAt s.input 4 = "" then ""
           else ",\"status\":" ++ encodeString (lineAt s.input 4)) ++ "\x7d") ∧
      (Order.members ⟨"", lineAt s.input 1, q, f, lineAt s.input 4⟩).map Prod.fst =
        ["product_id", "quantity", "amount"] ++
          (if lineAt s.input 4 = "" then [] else ["status"]) ∧
      ("status" ∈ (Order.members ⟨"", lineAt s.input 1, q, f, lineAt s.input 4⟩).map Prod.fst ↔
        lineAt s.input 4 ≠ "") ∧
      "id" ∉ (Order.members ⟨"", lineAt s.input 1, q, f, lineAt s.input 4⟩).map Prod.fst ∧
      requestsOf (updateOrderByID net base s).trace =
        requestsOf s.trace ++
          (match net.newRequest "PUT" (base ++ "/api/orders/" ++ lineAt s.input 0) with
           | none =>
             [⟨"PUT", base ++ "/api/orders/" ++ lineAt s.input 0, some "application/json",
               some (orderJSON (lineAt s.input 1) q t (lineAt s.input 4))⟩]
           | some _ => []) := by
  obtain ⟨t, ht⟩ := (encodeFloat_isFinite f).2 hfin
  refine ⟨t, ht, marshal_ok _ _ _ _ _ ht, ?_, ?_, ?_,
    requestsOf_updateOrderByID net base s q f t hq hf ht⟩
  · by_cases hs : lineAt s.input 4 = "" <;> simp [Order.members, hs]
  · by_cases hs : lineAt s.input 4 = "" <;> simp [Order.members, hs]
  · by_cases hs : lineAt s.input 4 = "" <;> simp [Order.members, hs]

/-- C10, amended, at id "42", product "P1", quantity "2", amount "9.99" and the
statuses "paid" and "": the PUT to `/api/orders/42` carries `status` in the
first case only, and never `id`. -/
theorem update_body_witness :
    (∃ t, encodeFloat (.finite false 5623870034678907 (-49)) = .ok t ∧
      marshal ⟨"", lineAt "42\nP1\n2\n9.99\npaid\n".data 1, 2,
          .finite false 5623870034678907 (-49), lineAt "42\nP1\n2\n9.99\npaid\n".data 4⟩ =
        .ok ("\x7b\"product_id\":" ++ encodeString (lineAt "42\nP1\n2\n9.99\npaid\n".data 1) ++
          ",\"quantity\":" ++ formatInt 2 ++ ",\"amount\":" ++ t ++
          (if lineAt "42\nP1\n2\n9.99\npaid\n".data 4 = "" then ""
           else ",\"status\":" ++ encodeString (lineAt "42\nP1\n2\n9.99\npaid\n".data 4)) ++
          "\x7d")) ∧
    requestsOf (updateOrderByID answering baseURL ⟨"42\nP1\n2\n9.99\npaid\n".data, []⟩).trace =
      [⟨"PUT", "http://localhost:8080/api/orders/42", some "application/json",
        some "\x7b\"product_id\":\"P1\",\"quantity\":2,\"amount\":9.99,\"status\":\"paid\"\x7d"⟩] ∧
    requestsOf (updateOrderByID answering baseURL ⟨"42\nP1\n2\n9.99\n\n".data, []⟩).trace =
      [⟨"PUT", "http://localhost:8080/api/orders/42", some "application/json",
        some "\x7b\"product_id\":\"P1\",\"quantity\":2,\"amount\":9.99\x7d"⟩] :=
  ⟨(update_body answering baseURL ⟨"42\nP1\n2\n9.99\npaid\n".data, []⟩ 2
      (.finite false 5623870034678907 (-49)) (by decide) (by decide) rfl).imp
      (fun _ h => ⟨h.1, h.2.1⟩),
    by decide, by decide⟩

/-- C10 as stated fails: with the accepted amount "NaN" `updateOrderByID`
builds an order that `json.Marshal` refuses, so that there is no JSON body to
contain `product_id`, `quantity` or `amount`; nothing is submitted. -/
theorem update_nan_has_no_body :
    atoi "2" = some 2 ∧
    parseFloat "NaN" = .ok .nan ∧
    marshal ⟨"", "P1", 2, .nan, "paid"⟩ = .error "json: unsupported value: NaN" ∧
    updateOrderByID offline baseURL ⟨"42\nP1\n2\nNaN\npaid\n".data, []⟩ =
      ⟨[], updatePrompts ++ [.print "请输入金额: ", .print "请输入订单状态: ",
        .print "JSON序列化失败: json: unsupported value: NaN\n"]⟩ ∧
    requestsOf (updateOrderByID offline baseURL ⟨"42\nP1\n2\nNaN\npaid\n".data, []⟩).trace = [] := by
  decide

end OrderClient
